import Mathlib

/-!
# gsfly: channel lifecycle, write path, read loop and server straps

A shallow embedding of `channel/channel.go`, `channel/tcpx/wschannel.go`,
`channel/tcp/tcpchannel.go`, `channel/udp/kcp/kcpchannel.go`,
`bootstrap/bootstrap.go` and `bootstrap/serverstrap.go`.

Conventions of the embedding

* A Go method with a pointer receiver becomes a function that takes the state
  of the receiver and returns the new state (next to the returned value).
* Every observable step (a callback invocation, a send on `closeExit`, a
  `conn.Close()`, a statistics update ...) is appended to `Channel.trace`, a
  ghost log that gives the order and the number of these steps.
* The `channel IChannel` argument of `StartChannel`, `StopChannel` and
  `startReadLoop` is the receiver itself seen through its dynamic type
  (`Dyn`): all callers in the repository pass the struct that embeds the
  receiver, so `channel.IsClosed()` and `b.closed` are the same flag.
* `go b.startReadLoop(channel)` is logged as `Event.goReadLoop`; the loop
  itself is the sequential function `startReadLoop`, driven by the list of
  results that the transport delivers.
* User callbacks are values of the environment.  `OnStartHandle`,
  `OnBefWriteHandle` and `OnAftWriteHandle` run under a `recover` of the code
  and are modelled with all three outcomes (nil, error, panic).
  `OnStartHandle` is handed the live channel and may call `Write` and `Stop`
  on it before it returns: it is a `ChProg`.  `OnStopHandle` and
  `OnErrorHandle` run inside deferred functions, after `recover` was called;
  they are taken to return normally and only their invocation is recorded.
  The other callbacks do not re-enter the channel.
-/

namespace Gsfly

/-- The error kinds declared at the top of channel.go. -/
inductive ErrKind where
  | ERR_READ
  | ERR_MSG
  | ERR_WRITE
  | ERR_STOP
  | ERR_START
  | ERR_REG
  deriving DecidableEq, Repr

/-- A value given to Go's panic: an `error` (the assertion `rec.(error)`
succeeds) or any other value. -/
inductive PanicVal where
  | error (msg : String)
  | other (msg : String)
  deriving DecidableEq, Repr

/-- What a call of a callback or of an interface method did: returned nil,
returned a non-nil error, or panicked. -/
inductive Outcome where
  | ok
  | fail (e : String)
  | panics (v : PanicVal)
  deriving DecidableEq, Repr

/-- The dynamic type of the `channel IChannel` argument: the base `Channel`
itself or one of the structs of the repository that embed it. -/
inductive Dyn where
  | base
  | ws
  | tcp
  | kcp
  deriving DecidableEq, Repr

/-- A `net.Conn` reference: nil, an open connection, or a closed one. -/
inductive NetConn where
  | absent
  | live
  | shut
  deriving DecidableEq, Repr

/-- The state of `closeExit`, made by `make(chan bool, 1)`.  `fresh`: open and
empty.  `fired pending`: closed by `StopChannel`; `pending` tells whether the
value sent just before the close is still buffered.  The only send in the
code is immediately followed by `close`, so an open channel that holds a
value does not occur. -/
inductive CloseExit where
  | fresh
  | fired (pending : Bool)
  deriving DecidableEq, Repr

/-- The protocol tags. -/
inductive Protocol where
  | PROTOCOL_TCP
  | PROTOCOL_UDP
  | PROTOCOL_KCP
  | PROTOCOL_WS
  | PROTOCOL_KWS00
  deriving DecidableEq, Repr

/-- Modelled from the spec: `Frame` and `NewInputFrame` are not in src.  The
frame codec is external to the channel code, so a frame is kept as the bytes
it is decoded from. -/
structure Frame where
  data : List Nat
  deriving DecidableEq, Repr

/-- Modelled from the spec: see `Frame`. -/
def NewInputFrame (data : List Nat) : Frame :=
  { data := data }

/-- A packet: payload, the prepared flag, the WebSocket message type, whether
its dynamic type is `*WsPacket`, the protocol tag, whether its dynamic type is
`*KwsPacket`, and the frame of a `KwsPacket`. -/
structure Packet where
  data : List Nat
  prepare : Bool
  MsgType : Int
  isWsPacket : Bool
  protocol : Protocol
  isKwsPacket : Bool
  Frame : Option Frame
  deriving DecidableEq, Repr

/-- What a callback that receives the channel can observe of it. -/
structure ChView where
  closed : Bool
  conn : NetConn
  deriving DecidableEq, Repr

/-- The ghost log. -/
inductive Event where
  | goReadLoop
  | setClosed (v : Bool)
  | closeExitSend
  | closeExitClose
  | closeExitRecv
  | connClose
  | onStart (v : ChView)
  | onStop (v : ChView)
  | onError (k : ErrKind) (msg : String)
  | befWrite (p : Packet)
  | writeByConn (p : Packet)
  | sendStatis (p : Packet) (success : Bool)
  | aftWrite (p : Packet)
  | setWriteDeadline (seconds : Int)
  | setReadDeadline (seconds : Int)
  | connRead
  | revStatis (p : Packet)
  | revStatisFail
  | cache (p : Packet)
  | msgHandle (p : Packet)
  deriving DecidableEq, Repr

/-- One direction of `ChannelStatis`. -/
structure Statics where
  Times : Nat
  FailTimes : Nat
  Bytes : Nat
  deriving DecidableEq, Repr

/-- The per-channel counters. -/
structure ChannelStatis where
  SendStatics : Statics
  RevStatics : Statics
  deriving DecidableEq, Repr

/-- The fields of `IChannelConf` that the channel code reads. -/
structure ChannelConf where
  ReadTimeout : Int
  WriteTimeout : Int
  CloseRevFailTime : Int
  deriving DecidableEq, Repr

/-- Which `WriteByConn` the dynamic type of the packet's channel provides, with
what the transport did in this call.  `base`: `Channel.WriteByConn`.
`ws werr`: `WsChannel.WriteByConn`, where `werr` is the error returned by
`Conn.WriteMessage`.  `other r`: another implementer of the interface method
`WriteByConn(packet IPacket) error`, known by its outcome `r`. -/
inductive WriteByConnImpl where
  | base
  | ws (werr : Option String)
  | other (r : Outcome)
  deriving DecidableEq, Repr

/-- What a callback that is handed the live channel does before it returns: a
call of `Write` (with what the transport does in that call; the callback goes
on with the error that `Write` returned), a call of `Stop`, or the end of the
callback with its outcome. -/
inductive ChProg where
  | done (o : Outcome)
  | write (impl : WriteByConnImpl) (p : Packet) (k : Option String → ChProg)
  | stop (k : ChProg)

/-- The callback slots of `ChannelHandle` that channel.go reads.  The slots
that the code tests against nil are options.  `OnErrorHandle` is called
without a nil test and is taken as set. -/
structure ChannelHandle where
  OnStartHandle : Option (ChView → ChProg)
  OnStopHandle : Option Unit
  OnBefWriteHandle : Option (Packet → Outcome)
  OnAftWriteHandle : Option (Packet → Outcome)

/-- The struct `Channel` (with the connection of the embedding struct).
`Conn` is the field of the base struct; `conn` is the connection held by the
embedding struct (`WsChannel.Conn`, `TcpChannel.conn`, `KcpChannel.conn`);
`protocol` is the field of `KcpChannel`, unset for the other channels. -/
structure Channel where
  id : String
  closed : Bool
  registered : Bool
  closeExit : CloseExit
  Conn : NetConn
  conn : NetConn
  conf : ChannelConf
  hasReadPool : Bool
  ChannelStatis : ChannelStatis
  protocol : Option Protocol
  trace : List Event
  deriving DecidableEq, Repr

/-- Append steps to the ghost log. -/
def Channel.log (b : Channel) (es : List Event) : Channel :=
  { b with trace := b.trace ++ es }

/-- Modelled from the spec: `NewChStatis` is not in src; the counters of a new
channel start at zero. -/
def NewChStatis : ChannelStatis :=
  { SendStatics := { Times := 0, FailTimes := 0, Bytes := 0 },
    RevStatics := { Times := 0, FailTimes := 0, Bytes := 0 } }

/-- The constructor `NewChannel`: closed, not registered, `closeExit` fresh, `Conn` unset. -/
def NewChannel (id : String) (chConf : ChannelConf) (hasReadPool : Bool) : Channel :=
  { id := id, closed := true, registered := false, closeExit := CloseExit.fresh,
    Conn := NetConn.absent, conn := NetConn.absent, conf := chConf,
    hasReadPool := hasReadPool, ChannelStatis := NewChStatis, protocol := none, trace := [] }

/-- The constructor `newKcpChannel`: a base channel plus the KCP session and the
protocol. -/
def NewKcpChannel (id : String) (chConf : ChannelConf) (protocol : Protocol) : Channel :=
  { NewChannel id chConf true with conn := NetConn.live, protocol := some protocol }

/-- The constructor `NewWsChannel`: a base channel plus the WebSocket connection. -/
def NewWsChannel (id : String) (chConf : ChannelConf) (hasReadPool : Bool) : Channel :=
  { NewChannel id chConf hasReadPool with conn := NetConn.live }

/-- The method `Channel.IsClosed`. -/
def Channel.IsClosed (b : Channel) : Bool := b.closed

/-- The method `Channel.SetClosed`. -/
def Channel.SetClosed (b : Channel) (closed : Bool) : Channel :=
  { b with closed := closed }

/-- The call `channel.GetConn()` by dynamic type: `Channel.GetConn` returns the field
`Conn`, and `TcpChannel` inherits it; `WsChannel.GetConn` returns the
underlying connection of its own `Conn`, `KcpChannel.GetConn` its `conn`. -/
def GetConn (channel : Dyn) (b : Channel) : NetConn :=
  match channel with
  | Dyn.base => b.Conn
  | Dyn.tcp => b.Conn
  | Dyn.ws => b.conn
  | Dyn.kcp => b.conn

/-- What a callback sees when it is handed `channel`. -/
def view (channel : Dyn) (b : Channel) : ChView :=
  { closed := b.IsClosed, conn := GetConn channel b }

/-- The effect of `conn.Close()` on a connection. -/
def NetConn.Close : NetConn → NetConn
  | NetConn.absent => NetConn.absent
  | NetConn.live => NetConn.shut
  | NetConn.shut => NetConn.shut

/-- The lines `conn := channel.GetConn(); if conn != nil { conn.Close() }`. -/
def closeConn (channel : Dyn) (b : Channel) : Channel :=
  match GetConn channel b with
  | NetConn.absent => b
  | _ =>
    match channel with
    | Dyn.base => ({ b with Conn := b.Conn.Close }).log [Event.connClose]
    | Dyn.tcp => ({ b with Conn := b.Conn.Close }).log [Event.connClose]
    | Dyn.ws => ({ b with conn := b.conn.Close }).log [Event.connClose]
    | Dyn.kcp => ({ b with conn := b.conn.Close }).log [Event.connClose]

/-- The method `Channel.StopChannel`.  A send on the already closed `closeExit` is a
runtime panic whose value is an error: the deferred function recovers it and
calls `OnErrorHandle` with `ERR_STOP`; the rest of the body is skipped. -/
def StopChannel (h : ChannelHandle) (channel : Dyn) (b : Channel) : Channel :=
  if b.IsClosed then b
  else
    let b1 := (b.SetClosed true).log [Event.setClosed true]
    match b1.closeExit with
    | CloseExit.fired _ =>
      b1.log [Event.onError ErrKind.ERR_STOP "send on closed channel"]
    | CloseExit.fresh =>
      let b2 := ({ b1 with closeExit := CloseExit.fired true }).log
        [Event.closeExitSend, Event.closeExitClose]
      let b3 := closeConn channel b2
      match h.OnStopHandle with
      | some _ => b3.log [Event.onStop (view channel b3)]
      | none => b3

/-- The method `Channel.Stop`: `b.StopChannel(b)`.  No struct of the repository that
embeds `Channel` declares its own `Stop`, so `channel.Stop()` is this method
whatever the dynamic type of `channel`. -/
def Stop (h : ChannelHandle) (b : Channel) : Channel :=
  StopChannel h Dyn.base b

/-- Modelled from the spec: `SendStatis` is not in src.  It counts a sent
packet in the send counters: a success adds one message and its bytes, a
failure adds one failure. -/
def SendStatis (b : Channel) (p : Packet) (success : Bool) : Channel :=
  let s := b.ChannelStatis.SendStatics
  let s1 : Statics :=
    if success then { s with Times := s.Times + 1, Bytes := s.Bytes + p.data.length }
    else { s with FailTimes := s.FailTimes + 1 }
  ({ b with ChannelStatis := { b.ChannelStatis with SendStatics := s1 } }).log
    [Event.sendStatis p success]

/-- Modelled from the spec: `RevStatis` is not in src.  It counts a received
packet in the receive counters. -/
def RevStatis (b : Channel) (p : Packet) : Channel :=
  let s := b.ChannelStatis.RevStatics
  let s1 : Statics := { s with Times := s.Times + 1, Bytes := s.Bytes + p.data.length }
  ({ b with ChannelStatis := { b.ChannelStatis with RevStatics := s1 } }).log
    [Event.revStatis p]

/-- Modelled from the spec: `RevStatisFail` is not in src.  It adds one to the
receive-failure counter. -/
def RevStatisFail (b : Channel) : Channel :=
  let s := b.ChannelStatis.RevStatics
  let s1 : Statics := { s with FailTimes := s.FailTimes + 1 }
  ({ b with ChannelStatis := { b.ChannelStatis with RevStatics := s1 } }).log
    [Event.revStatisFail]

/-- Modelled from the spec: the packet factory and `SetData` are not in src.
A new packet is empty and not prepared; `SetData` attaches the payload and
marks the packet prepared. -/
def NewPacket (isWsPacket : Bool) : Packet :=
  { data := [], prepare := false, MsgType := 1, isWsPacket := isWsPacket,
    protocol := if isWsPacket then Protocol.PROTOCOL_WS else Protocol.PROTOCOL_TCP,
    isKwsPacket := false, Frame := none }

/-- Modelled from the spec: see `NewPacket`. -/
def Packet.SetData (p : Packet) (bytes : List Nat) : Packet :=
  { p with data := bytes, prepare := true }

/-- The method `WsChannel.WriteByConn`: the type assertion, the write deadline, then
`WriteMessage`; on an error it counts a send failure and panics with it. -/
def WsChannel.WriteByConn (werr : Option String) (b : Channel) (p : Packet) : Outcome × Channel :=
  if !p.isWsPacket then (Outcome.panics (PanicVal.error "interface conversion"), b)
  else
    let b1 := b.log [Event.setWriteDeadline b.conf.WriteTimeout]
    match werr with
    | some e => (Outcome.panics (PanicVal.error e), SendStatis b1 p false)
    | none => (Outcome.ok, b1)

/-- The call `channel.WriteByConn(datapacket)`. -/
def callWriteByConn (impl : WriteByConnImpl) (b : Channel) (p : Packet) : Outcome × Channel :=
  let b1 := b.log [Event.writeByConn p]
  match impl with
  | WriteByConnImpl.base => (Outcome.panics (PanicVal.other "implement me"), b1)
  | WriteByConnImpl.ws werr => WsChannel.WriteByConn werr b1 p
  | WriteByConnImpl.other r => (r, b1)

/-- The text that the deferred function of `Write` hands to on-error. -/
def PanicVal.text : PanicVal → String
  | PanicVal.error m => m
  | PanicVal.other m => m

/-- The deferred function of `Write` when `recover` returns `rec`: on-error
with `ERR_WRITE`, then `channel.Stop()`. -/
def recoverWrite (h : ChannelHandle) (rec : PanicVal) (b : Channel) : Channel :=
  Stop h (b.log [Event.onError ErrKind.ERR_WRITE rec.text])

/-- The part of `Channel.Write` from the comment "send" on: the transport write, the
statistics, after-write. -/
def writeSend (h : ChannelHandle) (impl : WriteByConnImpl) (b : Channel) (p : Packet) :
    Option String × Channel :=
  match callWriteByConn impl b p with
  | (Outcome.fail e, b1) => (some e, b1)
  | (Outcome.panics rec, b1) => (none, recoverWrite h rec b1)
  | (Outcome.ok, b1) =>
    let b2 := SendStatis b1 p true
    match h.OnAftWriteHandle with
    | none => (none, b2)
    | some aftWriteHandle =>
      let b3 := b2.log [Event.aftWrite p]
      match aftWriteHandle p with
      | Outcome.panics rec => (none, recoverWrite h rec b3)
      | _ => (none, b3)

/-- The method `Channel.Write`.  The packet belongs to the channel it is written on
(`datapacket.GetChannel()` is the receiver seen through its dynamic type).
The result is the returned error (`none` for nil) and the new state. -/
def Write (h : ChannelHandle) (impl : WriteByConnImpl) (b : Channel) (datapacket : Packet) :
    Option String × Channel :=
  if b.IsClosed then (some ("wschannel had closed, chId:" ++ b.id), b)
  else if datapacket.prepare then
    match h.OnBefWriteHandle with
    | none => writeSend h impl b datapacket
    | some befWriteHandle =>
      let b1 := b.log [Event.befWrite datapacket]
      match befWriteHandle datapacket with
      | Outcome.ok => writeSend h impl b1 datapacket
      | Outcome.fail e => (some e, b1)
      | Outcome.panics rec => (none, recoverWrite h rec b1)
  else (none, b)

/-- Run a callback that is handed the live channel: its calls act on the
channel in turn. -/
def runProg (h : ChannelHandle) : ChProg → Channel → Outcome × Channel
  | ChProg.done o, b => (o, b)
  | ChProg.write impl p k, b => runProg h (k (Write h impl b p).1) (Write h impl b p).2
  | ChProg.stop k, b => runProg h k (Stop h b)

/-- The deferred function of `StartChannel` when `recover` returns `rec`. -/
def recoverStart (h : ChannelHandle) (rec : PanicVal) (b : Channel) : Channel :=
  match rec with
  | PanicVal.error m => Stop h (b.log [Event.onError ErrKind.ERR_START m])
  | PanicVal.other _ => Stop h b

/-- The state of a closed channel `b` when `StartChannel` calls on-start: the
read loop is launched, the flag is cleared, the call is logged with what
on-start sees. -/
def atOnStart (channel : Dyn) (b : Channel) : Channel :=
  (((b.log [Event.goReadLoop]).SetClosed false).log [Event.setClosed false]).log
    [Event.onStart (view channel
      (((b.log [Event.goReadLoop]).SetClosed false).log [Event.setClosed false]))]

/-- The method `Channel.StartChannel`.  The result is the returned error (`none` for
nil) and the new state.  After a recovered panic the function returns the zero
value of its unnamed result, nil. -/
def StartChannel (h : ChannelHandle) (channel : Dyn) (b : Channel) : Option String × Channel :=
  if !b.IsClosed then (some ("channel is open, chId:" ++ b.id), b)
  else
    let b1 := b.log [Event.goReadLoop]
    let b2 := (b1.SetClosed false).log [Event.setClosed false]
    match h.OnStartHandle with
    | none => (none, b2)
    | some startFunc =>
      match runProg h (startFunc (view channel b2)) (atOnStart channel b) with
      | (Outcome.ok, b4) => (none, b4)
      | (Outcome.fail e, b4) => (some e, b4)
      | (Outcome.panics rec, b4) => (none, recoverStart h rec b4)

/-- What the transport delivers to one read: an error, or a message type (used
by WebSocket only) and the bytes read. -/
inductive ConnRead where
  | err (e : String)
  | got (msgType : Int) (bytes : List Nat)
  deriving DecidableEq, Repr

/-- The result of `channel.Read()`: the two returned values, or a panic. -/
inductive ReadResult where
  | ret (rev : Option Packet) (err : Option String)
  | panicked (v : PanicVal)
  deriving DecidableEq, Repr

/-- The method `TcpChannel.Read`.  The deadline comes from `config.Global_Conf.ChannelConf`,
here the parameter `g`. -/
def TcpChannel.Read (g : ChannelConf) (b : Channel) (r : ConnRead) : ReadResult × Channel :=
  let b1 := b.log [Event.setReadDeadline g.ReadTimeout, Event.connRead]
  match r with
  | ConnRead.err e => (ReadResult.ret none (some e), b1)
  | ConnRead.got _ bytes =>
    let datapack := (NewPacket false).SetData bytes
    (ReadResult.ret (some datapack) none, RevStatis b1 datapack)

/-- The method `KcpChannel.NewPacket`: a `KwsPacket` tagged `PROTOCOL_KWS00` when
that is the protocol of the channel, a `KcpPacket` tagged `PROTOCOL_KCP`
otherwise. -/
def KcpChannel.NewPacket (b : Channel) : Packet :=
  if b.protocol = some Protocol.PROTOCOL_KWS00 then
    { Gsfly.NewPacket false with protocol := Protocol.PROTOCOL_KWS00, isKwsPacket := true }
  else
    { Gsfly.NewPacket false with protocol := Protocol.PROTOCOL_KCP }

/-- The method `KwsPacket.SetData`: the `SetData` of the base packet, then the
frame is made from the data. -/
def KwsPacket.SetData (p : Packet) (data : List Nat) : Packet :=
  { p.SetData data with Frame := some (NewInputFrame data) }

/-- The call `datapack.SetData(bytes)` by the dynamic type of the packet. -/
def callSetData (p : Packet) (data : List Nat) : Packet :=
  if p.isKwsPacket then KwsPacket.SetData p data else p.SetData data

/-- The method `KcpChannel.Read`.  A read of at most 8 bytes returns `(nil, nil)`. -/
def KcpChannel.Read (b : Channel) (r : ConnRead) : ReadResult × Channel :=
  let b1 := b.log [Event.setReadDeadline b.conf.ReadTimeout, Event.connRead]
  match r with
  | ConnRead.err e => (ReadResult.ret none (some e), b1)
  | ConnRead.got _ bytes =>
    if bytes.length ≤ 8 then (ReadResult.ret none none, b1)
    else
      let datapack := callSetData (KcpChannel.NewPacket b) bytes
      (ReadResult.ret (some datapack) none, RevStatis b1 datapack)

/-- The method `WsChannel.Read`.  The deadline is `ReadTimeout * CloseRevFailTime`
seconds; a failed read counts a receive failure. -/
def WsChannel.Read (b : Channel) (r : ConnRead) : ReadResult × Channel :=
  let b1 := b.log
    [Event.setReadDeadline (b.conf.ReadTimeout * b.conf.CloseRevFailTime), Event.connRead]
  match r with
  | ConnRead.err e => (ReadResult.ret none (some e), RevStatisFail b1)
  | ConnRead.got msgType data =>
    let wspacket := ({ NewPacket true with MsgType := msgType }).SetData data
    (ReadResult.ret (some wspacket) none, RevStatis b1 wspacket)

/-- The call `channel.Read()`; `Channel.Read` itself panics with a string. -/
def callRead (g : ChannelConf) (channel : Dyn) (b : Channel) (r : ConnRead) :
    ReadResult × Channel :=
  match channel with
  | Dyn.base => (ReadResult.panicked (PanicVal.other "implement me"), b)
  | Dyn.tcp => TcpChannel.Read g b r
  | Dyn.kcp => KcpChannel.Read b r
  | Dyn.ws => WsChannel.Read b r

/-- The method `Channel.IsReadLoopContinued`, which `WsChannel` overrides with `false`. -/
def IsReadLoopContinued (channel : Dyn) (b : Channel) : Bool :=
  match channel with
  | Dyn.ws => false
  | _ => decide ((b.ChannelStatis.RevStatics.FailTimes : Int) < b.conf.CloseRevFailTime)

/-- How a run of the read loop ended.  `exited`: it observed `closeExit` and
returned.  `failed`: it panicked; the deferred function called on-error with
`ERR_READ` and `b.Stop()`.  `reading`: the loop has not terminated: all the
listed transport results are consumed and it is inside the next `Read`. -/
inductive LoopEnd where
  | exited
  | failed
  | reading
  deriving DecidableEq, Repr

/-- The deferred function of `startReadLoop` after a panic. -/
def recoverReadLoop (h : ChannelHandle) (msg : String) (b : Channel) : Channel :=
  Stop h (b.log [Event.onError ErrKind.ERR_READ msg])

/-- The dispatch of a received packet at the end of a loop iteration. -/
def dispatch (b : Channel) (rev : Option Packet) : Channel :=
  match rev with
  | none => b
  | some p =>
    if p.prepare then
      if b.hasReadPool then b.log [Event.cache p] else b.log [Event.msgHandle p]
    else b

/-- The method `Channel.startReadLoop`, run on the list of results that the
transport delivers to the successive reads.  Each iteration first polls
`closeExit` (the `select` with a `default` branch).  On a read error that is
not to be continued the loop panics (inside `logx.Panic`, which panics before
the `panic(err)` that follows it); the deferred function recovers whatever
the panic value is and calls on-error with `ERR_READ`, then `b.Stop()`. -/
def startReadLoop (h : ChannelHandle) (g : ChannelConf) (channel : Dyn) :
    List ConnRead → Channel → LoopEnd × Channel
  | [], b =>
    match b.closeExit with
    | CloseExit.fired _ =>
      (LoopEnd.exited, ({ b with closeExit := CloseExit.fired false }).log [Event.closeExitRecv])
    | CloseExit.fresh =>
      match channel with
      | Dyn.base => (LoopEnd.failed, recoverReadLoop h "implement me" b)
      | _ => (LoopEnd.reading, b)
  | r :: rest, b =>
    match b.closeExit with
    | CloseExit.fired _ =>
      (LoopEnd.exited, ({ b with closeExit := CloseExit.fired false }).log [Event.closeExitRecv])
    | CloseExit.fresh =>
      match callRead g channel b r with
      | (ReadResult.panicked v, b1) => (LoopEnd.failed, recoverReadLoop h v.text b1)
      | (ReadResult.ret _ (some e), b1) =>
        if IsReadLoopContinued channel b1 then startReadLoop h g channel rest b1
        else (LoopEnd.failed, recoverReadLoop h e b1)
      | (ReadResult.ret rev none, b1) => startReadLoop h g channel rest (dispatch b1 rev)

/-- The calls of the lifecycle. -/
inductive Op where
  | start
  | stop
  deriving DecidableEq, Repr

/-- Run a sequence of `Start` / `Stop` calls on a channel. -/
def runOps (h : ChannelHandle) (channel : Dyn) : List Op → Channel → Channel
  | [], b => b
  | Op.start :: ops, b => runOps h channel ops (StartChannel h channel b).2
  | Op.stop :: ops, b => runOps h channel ops (StopChannel h channel b)

/-- A handle with no optional slot set. -/
def emptyHandle : ChannelHandle :=
  { OnStartHandle := none, OnStopHandle := none, OnBefWriteHandle := none,
    OnAftWriteHandle := none }

/-- A configuration used in the concrete evaluations. -/
def conf3 : ChannelConf :=
  { ReadTimeout := 5, WriteTimeout := 5, CloseRevFailTime := 3 }

/-- A freshly constructed base channel. -/
def ch0 : Channel := NewChannel "a->b" conf3 true

/-- A handle whose on-start returns an error; on-stop is set. -/
def failHandle : ChannelHandle :=
  { OnStartHandle := some (fun _ => ChProg.done (Outcome.fail "boom")),
    OnStopHandle := some (), OnBefWriteHandle := none, OnAftWriteHandle := none }

/-- A handle with every slot set to a callback that returns nil. -/
def okHandle : ChannelHandle :=
  { OnStartHandle := some (fun _ => ChProg.done Outcome.ok), OnStopHandle := some (),
    OnBefWriteHandle := some (fun _ => Outcome.ok),
    OnAftWriteHandle := some (fun _ => Outcome.ok) }

/-- A handle whose before-write returns an error. -/
def befFailHandle : ChannelHandle :=
  { OnStartHandle := none, OnStopHandle := some (),
    OnBefWriteHandle := some (fun _ => Outcome.fail "refused"),
    OnAftWriteHandle := some (fun _ => Outcome.ok) }

/-- A freshly constructed WebSocket channel. -/
def wsCh0 : Channel := NewWsChannel "a->b" conf3 true

/-- An open WebSocket channel: `wsCh0` after a successful start. -/
def wsOpen : Channel := (StartChannel okHandle Dyn.ws wsCh0).2

/-- An open TCP channel with `CloseRevFailTime = 3` and no receive failure
counted so far. -/
def tcpOpen : Channel := (StartChannel okHandle Dyn.tcp (NewChannel "a:b" conf3 true)).2

/-- A prepared WebSocket packet. -/
def pkt : Packet := (NewPacket true).SetData [104, 105]

/-- The steps that `StopChannel` can log. -/
def Event.isStopStep : Event → Bool
  | Event.setClosed true => true
  | Event.closeExitSend => true
  | Event.closeExitClose => true
  | Event.connClose => true
  | Event.onStop _ => true
  | Event.onError ErrKind.ERR_STOP _ => true
  | _ => false

/-- Recognises an on-error call with kind `ERR_WRITE`. -/
def Event.isWriteError : Event → Bool
  | Event.onError ErrKind.ERR_WRITE _ => true
  | _ => false

/-- Recognises an on-error call of any kind. -/
def Event.isOnError : Event → Bool
  | Event.onError _ _ => true
  | _ => false

/-- The steps of the write path proper: before-write, the transport write, the
send statistics, after-write. -/
def Event.isWriteStep : Event → Bool
  | Event.befWrite _ => true
  | Event.writeByConn _ => true
  | Event.sendStatis _ _ => true
  | Event.aftWrite _ => true
  | _ => false

/-- Recognises an on-error call with kind `ERR_READ`. -/
def Event.isReadError : Event → Bool
  | Event.onError ErrKind.ERR_READ _ => true
  | _ => false

/-- Recognises a `conn.Close()` step. -/
def Event.isConnClose : Event → Bool
  | Event.connClose => true
  | _ => false

/-- A value of `config.Global_Conf.ChannelConf` whose read timeout differs from
the one of `conf3`. -/
def globalConf30 : ChannelConf :=
  { ReadTimeout := 30, WriteTimeout := 30, CloseRevFailTime := 3 }

/-- An open KCP channel. -/
def kcpOpen : Channel :=
  (StartChannel okHandle Dyn.kcp (NewKcpChannel "a:b:7" conf3 Protocol.PROTOCOL_KCP)).2

/-- An open KCP channel whose protocol is KWS00. -/
def kwsOpen : Channel :=
  (StartChannel okHandle Dyn.kcp (NewKcpChannel "a:b:8" conf3 Protocol.PROTOCOL_KWS00)).2

/-! ## The server straps (bootstrap.go, serverstrap.go)

`ServerStrap` and `NewServerStrap` are not in src.  The fields that
serverstrap.go reads from it (`Closed`, `Channels`, `ChannelHandle`) and its
`Stop` are those of `BaseServer` and `BaseCommunication` in bootstrap.go, which
is what the embedding uses.  The channel map is an association list with
distinct keys; Go leaves the iteration order of a map open, and nothing below
depends on it.  The channels are started through `Channel.Start`, which the
structs that embed `Channel` inherit. -/

/-- The method `Channel.Start`: `b.StartChannel(b)`. -/
def Start (h : ChannelHandle) (b : Channel) : Option String × Channel :=
  StartChannel h Dyn.base b

/-- Recognises an on-stop call. -/
def Event.isOnStop : Event → Bool
  | Event.onStop _ => true
  | _ => false

/-- The steps of a strap that are logged. -/
inductive StrapEvent where
  | exitSend
  | upgrade
  | newChannel (id : String)
  | startChannel (id : String)
  deriving DecidableEq, Repr

/-- An entry of the channel map: the channel with its dynamic type, and whether
the on-stop of its handle was wrapped by `ConverOnStopHandle`. -/
structure Member where
  channel : Dyn
  ch : Channel
  onStopWrapped : Bool
  deriving DecidableEq, Repr

/-- The fields of the server configuration that the straps read. -/
structure BaseServerConf where
  AddrStr : String
  MaxChannelSize : Int
  ChannelConf : ChannelConf
  deriving DecidableEq, Repr

/-- The struct `BaseServer` with its `BaseCommunication`.  `exitPending` tells
whether the one-slot buffer of `Exit` (made by `make(chan bool, 1)`) holds a
value; nothing in src receives from `Exit`.  `slog` is a ghost log. -/
structure BaseServer where
  Closed : Bool
  exitPending : Bool
  ServerConf : BaseServerConf
  Channels : List (String × Member)
  slog : List StrapEvent
  deriving DecidableEq, Repr

/-- The constructor `NewCommunication` with an empty channel map: closed, `Exit`
empty. -/
def NewServer (serverConf : BaseServerConf) : BaseServer :=
  { Closed := true, exitPending := false, ServerConf := serverConf, Channels := [], slog := [] }

/-- The map assignment `m[key] = v`. -/
def mapSet {V : Type} (m : List (String × V)) (key : String) (v : V) : List (String × V) :=
  if m.any (fun e => e.1 == key) then m.map (fun e => if e.1 == key then (key, v) else e)
  else m ++ [(key, v)]

/-- The map deletion `delete(m, key)`. -/
def mapDelete {V : Type} (m : List (String × V)) (key : String) : List (String × V) :=
  m.filter (fun e => e.1 != key)

/-- Modelled from the spec: `ConverOnStopHandle` is not in src.  The handle of a
member whose on-stop was wrapped has on-stop set: the wrapper removes the
channel from the map of the strap and then calls the wrapped callback. -/
def memberHandle (h : ChannelHandle) (m : Member) : ChannelHandle :=
  if m.onStopWrapped then { h with OnStopHandle := some () } else h

/-- The call `ch.StopChannel(ch)` on one entry of the map: the entry with the
channel in the state after the call. -/
def stopEntry (hOf : String → ChannelHandle) (e : String × Member) : String × Member :=
  (e.1, { e.2 with ch := StopChannel (memberHandle (hOf e.1) e.2) e.2.channel e.2.ch })

/-- How a call of `BaseServer.Stop` ends.  `returned s stopped`: it returned in
state `s`; `stopped` lists the channels it called `StopChannel` on, in the
state after that call.  `blocked s`: the send on `Exit` found the buffer full
and, as nothing receives from `Exit`, the call never returns; `s` is the state
it has reached. -/
inductive StopResult where
  | returned (s : BaseServer) (stopped : List (String × Member))
  | blocked (s : BaseServer)
  deriving DecidableEq, Repr

/-- One turn of the loop `for key, ch := range acceptChannels` of
`BaseServer.Stop`, seen from the map: `ch.StopChannel(ch)` (when the on-stop
of the channel was wrapped and is called, the wrapper deletes the key from the
map), then `delete(acceptChannels, key)`. -/
def stopTurn (hOf : String → ChannelHandle) (e : String × Member) (s : BaseServer) :
    BaseServer :=
  let e1 := stopEntry hOf e
  let invoked := (e1.2.ch.trace.drop e.2.ch.trace.length).any Event.isOnStop
  let m1 := if e.2.onStopWrapped && invoked then mapDelete s.Channels e.1 else s.Channels
  { s with Channels := mapDelete m1 e.1 }

/-- The loop `for key, ch := range acceptChannels` of `BaseServer.Stop`, over
the entries that `range` still has to yield.  A turn deletes no other key
than its own, so no entry is removed before `range` reaches it.  The third
argument collects the channels that were stopped. -/
def stopLoop (hOf : String → ChannelHandle) :
    List (String × Member) → BaseServer → List (String × Member) →
      BaseServer × List (String × Member)
  | [], s, stopped => (s, stopped)
  | e :: rest, s, stopped =>
    stopLoop hOf rest (stopTurn hOf e s) (stopped ++ [stopEntry hOf e])

/-- The method `BaseServer.Stop`; `hOf` gives the handle of each member. -/
def BaseServer.Stop (hOf : String → ChannelHandle) (s : BaseServer) : StopResult :=
  if !s.Closed then
    let s1 := { s with Closed := true }
    if s1.exitPending then StopResult.blocked s1
    else
      let s2 := { s1 with exitPending := true, slog := s1.slog ++ [StrapEvent.exitSend] }
      let r := stopLoop hOf s2.Channels s2 []
      StopResult.returned r.1 r.2
  else StopResult.returned s []

/-- The method `HttpWsServerStrap.startWs`.  `upg` is the error of
`upgrader.Upgrade` (`none` for nil) and `id` the id that the new channel gets
from the addresses of the connection. -/
def HttpWsServerStrap.startWs (handle : ChannelHandle) (upg : Option String) (id : String)
    (s : BaseServer) : Option String × BaseServer :=
  let connLen : Int := s.Channels.length
  let maxAcceptSize := s.ServerConf.MaxChannelSize
  if connLen ≥ maxAcceptSize then
    (some ("max accept size:" ++ toString maxAcceptSize), s)
  else
    let s1 := { s with slog := s.slog ++ [StrapEvent.upgrade] }
    match upg with
    | some e => (some e, s1)
    | none =>
      let wsCh := NewWsChannel id s.ServerConf.ChannelConf true
      let s2 := { s1 with slog := s1.slog ++ [StrapEvent.newChannel id, StrapEvent.startChannel id] }
      match Gsfly.Start handle wsCh with
      | (none, ch) =>
        let m : Member := { channel := Dyn.ws, ch := ch, onStopWrapped := false }
        (none, { s2 with Channels := mapSet s2.Channels id m })
      | (some e, _) => (some e, s2)

/-- The part of `KcpServerStrap.Start` before the accept loop.  `listenErr` is
the error of `kcp.ListenWithOptions`. -/
def KcpServerStrap.Start (listenErr : Option String) (s : BaseServer) :
    Option String × BaseServer :=
  if !s.Closed then (some ("server had opened, id:" ++ s.ServerConf.AddrStr), s)
  else
    match listenErr with
    | some e => (some e, s)
    | none => (none, { s with Closed := false })

/-- One turn of the accept loop of `KcpServerStrap.Start` for an accepted
connection whose channel gets the id `id`: on-stop is wrapped, the channel is
made and started, and entered in the map when the start returns nil. -/
def KcpServerStrap.accept (h : ChannelHandle) (id : String) (s : BaseServer) : BaseServer :=
  let handle := { h with OnStopHandle := some () }
  let kcpCh := NewKcpChannel id s.ServerConf.ChannelConf Protocol.PROTOCOL_KCP
  let s1 := { s with slog := s.slog ++ [StrapEvent.newChannel id, StrapEvent.startChannel id] }
  match Gsfly.Start handle kcpCh with
  | (none, ch) =>
    let m : Member := { channel := Dyn.kcp, ch := ch, onStopWrapped := true }
    { s1 with Channels := mapSet s1.Channels id m }
  | (some _, _) => s1

/-- One turn of the accept loop of `Kws00ServerStrap.Start`: as for KCP, but
the handle of the strap is used as it is. -/
def Kws00ServerStrap.accept (h : ChannelHandle) (id : String) (s : BaseServer) : BaseServer :=
  let kcpCh := NewKcpChannel id s.ServerConf.ChannelConf Protocol.PROTOCOL_KWS00
  let s1 := { s with slog := s.slog ++ [StrapEvent.newChannel id, StrapEvent.startChannel id] }
  match Gsfly.Start h kcpCh with
  | (none, ch) =>
    let m : Member := { channel := Dyn.kcp, ch := ch, onStopWrapped := false }
    { s1 with Channels := mapSet s1.Channels id m }
  | (some _, _) => s1

/-- The call `Stop()` on the member with key `id`, seen from the strap: the
channel is stopped; when its on-stop was wrapped and is called, the wrapper
removes the entry from the map. -/
def BaseServer.stopChannel (h : ChannelHandle) (id : String) (s : BaseServer) : BaseServer :=
  match s.Channels.lookup id with
  | none => s
  | some m =>
    let ch1 := Gsfly.Stop (memberHandle h m) m.ch
    let invoked := (ch1.trace.drop m.ch.trace.length).any Event.isOnStop
    if m.onStopWrapped && invoked then { s with Channels := mapDelete s.Channels id }
    else { s with Channels := mapSet s.Channels id { m with ch := ch1 } }

/-- The method `HttpWsServerStrap.AddWsHandleFunc`: `t.msgHandlers[pattern] = h`. -/
def AddWsHandleFunc {H : Type} (pattern : String) (wsHandleFunc : H)
    (msgHandlers : List (String × H)) : List (String × H) :=
  mapSet msgHandlers pattern wsHandleFunc

/-- What the loop `for key, f := range wsHandlers` of `HttpWsServerStrap.Start`
builds.  `patterns`: the patterns given to `http.HandleFunc`.  `f`: the range
variable `f`.  The repository dates from 2020; in Go before 1.22 a range
variable is one variable for the whole loop, and the function literal given
to `http.HandleFunc` refers to that variable: it reads `f` when a request
arrives, which is after the loop, as the server listens only then. -/
structure WsRoutes (H : Type) where
  patterns : List String
  f : Option H
  deriving Repr

/-- The loop over `wsHandlers`, in the order in which `range` yields the
entries. -/
def registerWsHandlers {H : Type} : List (String × H) → WsRoutes H → WsRoutes H
  | [], r => r
  | (key, f) :: rest, r =>
    registerWsHandlers rest { patterns := r.patterns ++ [key], f := some f }

/-- The handle that a request on pattern `p` passes to `startWs`. -/
def handleOfRequest {H : Type} (r : WsRoutes H) (p : String) : Option H :=
  if p ∈ r.patterns then r.f else none

/-- A server configuration with `MaxChannelSize = 2`. -/
def serverConf2 : BaseServerConf :=
  { AddrStr := "127.0.0.1:0", MaxChannelSize := 2, ChannelConf := conf3 }

/-- A WebSocket strap after two accepted upgrades. -/
def wsStrapFull : BaseServer :=
  (HttpWsServerStrap.startWs okHandle none "c2"
    (HttpWsServerStrap.startWs okHandle none "c1"
      { NewServer serverConf2 with Closed := false }).2).2

/-- A KCP strap that was started, has accepted one connection, was stopped,
started again, and has accepted another connection. -/
def kcpStrapRestarted : BaseServer :=
  match BaseServer.Stop (fun _ => okHandle)
      (KcpServerStrap.accept okHandle "c1"
        (KcpServerStrap.Start none (NewServer serverConf2)).2) with
  | StopResult.returned s _ =>
    KcpServerStrap.accept okHandle "c2" (KcpServerStrap.Start none s).2
  | StopResult.blocked s => s

/-- A KCP strap with `MaxChannelSize = 2` after three accepted connections. -/
def kcpStrap3 : BaseServer :=
  KcpServerStrap.accept okHandle "c3"
    (KcpServerStrap.accept okHandle "c2"
      (KcpServerStrap.accept okHandle "c1"
        (KcpServerStrap.Start none (NewServer serverConf2)).2))

/-- A KWS00 strap with `MaxChannelSize = 2` after three accepted connections. -/
def kwsStrap3 : BaseServer :=
  Kws00ServerStrap.accept okHandle "c3"
    (Kws00ServerStrap.accept okHandle "c2"
      (Kws00ServerStrap.accept okHandle "c1"
        (KcpServerStrap.Start none (NewServer serverConf2)).2))

/-- The table of WebSocket handlers after two registrations; the handles are
named 1 and 2. -/
def twoWsHandlers : List (String × Nat) :=
  AddWsHandleFunc "/b" 2 (AddWsHandleFunc "/a" 1 [])

/-- The routes before the loop: nothing registered, `f` not yet assigned. -/
def noRoutes : WsRoutes Nat := { patterns := [], f := none }

/-- The log of `b1` is the log of `b` with steps appended. -/
def logExtends (b b1 : Channel) : Prop :=
  ∃ more, b1.trace = b.trace ++ more

/-! ## Theorems -/

/-! ### Basic facts -/

@[simp]
theorem log_trace (b : Channel) (es : List Event) : (b.log es).trace = b.trace ++ es := rfl

@[simp]
theorem log_closed (b : Channel) (es : List Event) : (b.log es).closed = b.closed := rfl

@[simp]
theorem log_IsClosed (b : Channel) (es : List Event) :
    (b.log es).IsClosed = b.IsClosed := rfl

@[simp]
theorem log_closeExit (b : Channel) (es : List Event) :
    (b.log es).closeExit = b.closeExit := rfl

@[simp]
theorem log_statis (b : Channel) (es : List Event) :
    (b.log es).ChannelStatis = b.ChannelStatis := rfl

@[simp]
theorem log_conf (b : Channel) (es : List Event) : (b.log es).conf = b.conf := rfl

@[simp]
theorem log_GetConn (channel : Dyn) (b : Channel) (es : List Event) :
    GetConn channel (b.log es) = GetConn channel b := by
  cases channel <;> rfl

/-- After `StopChannel` the channel is closed, whatever the state before. -/
theorem StopChannel_IsClosed (h : ChannelHandle) (channel : Dyn) (b : Channel) :
    (StopChannel h channel b).IsClosed = true := by
  unfold StopChannel
  by_cases hc : b.IsClosed = true
  · simp [hc]
  · simp only [hc, Bool.false_eq_true, if_false]
    cases hx : b.closeExit with
    | fired pending =>
      simp [Channel.SetClosed, Channel.log, Channel.IsClosed, hx]
    | fresh =>
      simp only [Channel.SetClosed, Channel.log, hx]
      cases h.OnStopHandle <;> cases channel <;>
        simp only [closeConn, GetConn] <;> split <;> rfl

/-- On a closed channel `StopChannel` is the identity. -/
theorem StopChannel_of_closed (h : ChannelHandle) (channel : Dyn) (b : Channel)
    (hc : b.IsClosed = true) : StopChannel h channel b = b := by
  unfold StopChannel
  simp [hc]


/-- C1: on an open channel `StartChannel` returns a non-nil error and leaves the
whole state as it was: the closed flag stays false and the log gains no step
(no on-start call, no second read loop). -/
theorem StartChannel_open_is_error (h : ChannelHandle) (channel : Dyn) (b : Channel)
    (hopen : b.IsClosed = false) :
    (StartChannel h channel b).1 = some ("channel is open, chId:" ++ b.id) ∧
    (StartChannel h channel b).2 = b ∧
    (StartChannel h channel b).2.IsClosed = false ∧
    (StartChannel h channel b).2.trace = b.trace := by
  have hb : StartChannel h channel b = (some ("channel is open, chId:" ++ b.id), b) := by
    unfold StartChannel
    simp [hopen]
  rw [hb]
  exact ⟨rfl, rfl, hopen, rfl⟩

/-- C1 (witness): a second Start on the open WebSocket channel `wsOpen`. -/
theorem StartChannel_open_is_error_witness :
    wsOpen.IsClosed = false ∧
    (StartChannel okHandle Dyn.ws wsOpen).1 = some ("channel is open, chId:" ++ wsOpen.id) ∧
    (StartChannel okHandle Dyn.ws wsOpen).2 = wsOpen ∧
    (StartChannel okHandle Dyn.ws wsOpen).2.IsClosed = false ∧
    (StartChannel okHandle Dyn.ws wsOpen).2.trace = wsOpen.trace :=
  ⟨by decide, StartChannel_open_is_error okHandle Dyn.ws wsOpen (by decide)⟩

/-- The log after `closeConn` is the old log, possibly with one `connClose`. -/
theorem closeConn_trace (channel : Dyn) (b : Channel) :
    (closeConn channel b).trace =
      b.trace ++ (if GetConn channel b = NetConn.absent then [] else [Event.connClose]) := by
  unfold closeConn
  cases channel <;> simp only [GetConn] <;> split <;> simp_all [Channel.log]

/-- What `closeConn` leaves in the connection that `GetConn` returns. -/
theorem closeConn_GetConn (channel : Dyn) (b : Channel) :
    GetConn channel (closeConn channel b) = (GetConn channel b).Close := by
  unfold closeConn
  cases channel <;> simp only [GetConn] <;> split <;> simp_all [Channel.log, GetConn, NetConn.Close]

@[simp]
theorem closeConn_closed (channel : Dyn) (b : Channel) :
    (closeConn channel b).closed = b.closed := by
  unfold closeConn
  cases channel <;> simp only [GetConn] <;> split <;> rfl

@[simp]
theorem closeConn_statis (channel : Dyn) (b : Channel) :
    (closeConn channel b).ChannelStatis = b.ChannelStatis := by
  unfold closeConn
  cases channel <;> simp only [GetConn] <;> split <;> rfl

/-- The function `StopChannel` only appends to the log, and only steps of a stop. -/
theorem StopChannel_trace (h : ChannelHandle) (channel : Dyn) (b : Channel) :
    ∃ rest, (StopChannel h channel b).trace = b.trace ++ rest ∧
      ∀ e ∈ rest, e.isStopStep = true := by
  unfold StopChannel
  by_cases hc : b.IsClosed = true
  · exact ⟨[], by simp [hc]⟩
  · simp only [hc, Bool.false_eq_true, if_false]
    cases hx : b.closeExit with
    | fired pending =>
      refine ⟨[Event.setClosed true, Event.onError ErrKind.ERR_STOP "send on closed channel"], ?_, ?_⟩
      · simp [Channel.SetClosed, Channel.log, hx]
      · intro e he
        simp at he
        rcases he with rfl | rfl <;> rfl
    | fresh =>
      simp only [Channel.SetClosed, Channel.log, hx]
      cases ho : h.OnStopHandle with
      | none =>
        refine ⟨[Event.setClosed true, Event.closeExitSend, Event.closeExitClose] ++
          (if GetConn channel b = NetConn.absent then [] else [Event.connClose]), ?_, ?_⟩
        · simp only [closeConn_trace]
          cases channel <;> simp [GetConn]
        · intro e he
          simp at he
          rcases he with rfl | rfl | rfl | ⟨_, rfl⟩ <;> rfl
      | some u =>
        refine ⟨[Event.setClosed true, Event.closeExitSend, Event.closeExitClose] ++
          (if GetConn channel b = NetConn.absent then [] else [Event.connClose]) ++
          [Event.onStop (view channel (closeConn channel
            { b with closed := true, closeExit := CloseExit.fired true,
                     trace := b.trace ++ [Event.setClosed true] ++
                       [Event.closeExitSend, Event.closeExitClose] }))], ?_, ?_⟩
        · simp only [closeConn_trace]
          cases channel <;> simp [GetConn]
        · intro e he
          simp at he
          rcases he with rfl | rfl | rfl | ⟨_, rfl⟩ | rfl <;> rfl

/-- The statistics are not touched by `StopChannel`. -/
theorem StopChannel_statis (h : ChannelHandle) (channel : Dyn) (b : Channel) :
    (StopChannel h channel b).ChannelStatis = b.ChannelStatis := by
  unfold StopChannel
  by_cases hc : b.IsClosed = true
  · simp [hc]
  · simp only [hc, Bool.false_eq_true, if_false]
    cases hx : b.closeExit with
    | fired pending => simp [Channel.SetClosed, Channel.log, hx]
    | fresh =>
      simp only [Channel.SetClosed, Channel.log, hx]
      cases h.OnStopHandle <;> simp

/-- Running two sequences of calls one after the other. -/
theorem runOps_append (h : ChannelHandle) (channel : Dyn) (xs ys : List Op) (b : Channel) :
    runOps h channel (xs ++ ys) b = runOps h channel ys (runOps h channel xs b) := by
  induction xs generalizing b with
  | nil => rfl
  | cons x xs ih =>
    cases x <;> simp [runOps, ih]

/-! ### The claims -/

/-- C3 (the code at the failing input): on the new channel `ch0`, with a handle
whose on-start returns the error "boom", `StartChannel` returns that error and
leaves the channel open: the read loop was launched, no stop step was run. -/
theorem StartChannel_onStart_error_stays_open :
    ch0.IsClosed = true ∧
    (StartChannel failHandle Dyn.base ch0).1 = some "boom" ∧
    (StartChannel failHandle Dyn.base ch0).2.IsClosed = false ∧
    (StartChannel failHandle Dyn.base ch0).2.trace =
      [Event.goReadLoop, Event.setClosed false,
       Event.onStart { closed := false, conn := NetConn.absent }] := by
  decide

/-- C4 (counterexample): on the new channel `ch0`, Start, Stop, Start: the
channel was open, became closed again, and the second Start returns nil and
reopens it. -/
theorem Start_after_Stop_reopens :
    (runOps emptyHandle Dyn.base [Op.start] ch0).IsClosed = false ∧
    (runOps emptyHandle Dyn.base [Op.start, Op.stop] ch0).IsClosed = true ∧
    (StartChannel emptyHandle Dyn.base
      (runOps emptyHandle Dyn.base [Op.start, Op.stop] ch0)).1 = none ∧
    (runOps emptyHandle Dyn.base [Op.start, Op.stop, Op.start] ch0).IsClosed = false := by
  decide

/-- C4 (amended): the channel is closed after every Stop, whatever calls came
before; and on a closed channel a sequence of calls that contains no Start
leaves the state as it is, so `IsClosed` stays true. -/
theorem closed_after_Stop_kept_without_Start (h : ChannelHandle) (channel : Dyn)
    (ops : List Op) (b : Channel) :
    (runOps h channel (ops ++ [Op.stop]) b).IsClosed = true ∧
    (b.IsClosed = true → (∀ op ∈ ops, op = Op.stop) → runOps h channel ops b = b) := by
  constructor
  · rw [runOps_append]
    simp [runOps, StopChannel_IsClosed]
  · intro hc hall
    induction ops with
    | nil => rfl
    | cons op ops ih =>
      have hop : op = Op.stop := hall op (by simp)
      subst hop
      simp only [runOps]
      rw [StopChannel_of_closed h channel b hc]
      exact ih (fun o ho => hall o (by simp [ho]))

/-- C4 (witness): a stopped channel stays closed through two more Stops. -/
theorem closed_after_Stop_kept_without_Start_witness :
    (runOps okHandle Dyn.ws [Op.start, Op.stop] wsCh0).IsClosed = true ∧
    runOps okHandle Dyn.ws [Op.stop, Op.stop]
      (runOps okHandle Dyn.ws [Op.start, Op.stop] wsCh0) =
      runOps okHandle Dyn.ws [Op.start, Op.stop] wsCh0 :=
  ⟨by decide,
   (closed_after_Stop_kept_without_Start okHandle Dyn.ws [Op.stop, Op.stop]
      (runOps okHandle Dyn.ws [Op.start, Op.stop] wsCh0)).2 (by decide) (by decide)⟩

/-- C5: on a closed channel `StopChannel` returns the state unchanged (so the
log gains no on-stop, on-error, close-exit or connection-close step); and for
every channel a second Stop changes nothing after the first. -/
theorem StopChannel_idempotent (h : ChannelHandle) (channel : Dyn) (b : Channel) :
    (b.IsClosed = true →
      StopChannel h channel b = b ∧ (StopChannel h channel b).trace = b.trace) ∧
    StopChannel h channel (StopChannel h channel b) = StopChannel h channel b := by
  constructor
  · intro hc
    rw [StopChannel_of_closed h channel b hc]
    exact ⟨rfl, rfl⟩
  · exact StopChannel_of_closed h channel _ (StopChannel_IsClosed h channel b)

/-- C5 (witness): Stop on the never started channel `ch0`. -/
theorem StopChannel_idempotent_witness :
    ch0.IsClosed = true ∧ StopChannel okHandle Dyn.base ch0 = ch0 ∧
      (StopChannel okHandle Dyn.base ch0).trace = ch0.trace :=
  ⟨rfl, (StopChannel_idempotent okHandle Dyn.base ch0).1 rfl⟩

/-- C6 (counterexample): the WebSocket channel after Start, Stop, Start is open
and its handle has on-stop set; `StopChannel` on it sets the flag, then the
send on the already closed `closeExit` panics: close-exit is not signalled,
the connection is not closed, on-stop is not called, on-error is. -/
theorem StopChannel_reopened_skips_onStop :
    (runOps okHandle Dyn.ws [Op.start, Op.stop, Op.start] wsCh0).IsClosed = false ∧
    okHandle.OnStopHandle = some () ∧
    (StopChannel okHandle Dyn.ws
      (runOps okHandle Dyn.ws [Op.start, Op.stop, Op.start] wsCh0)).trace =
      (runOps okHandle Dyn.ws [Op.start, Op.stop, Op.start] wsCh0).trace ++
        [Event.setClosed true, Event.onError ErrKind.ERR_STOP "send on closed channel"] := by
  decide

/-- C6 (amended): on an open channel whose `closeExit` has not been fired
before, `StopChannel` performs exactly these steps in this order: set closed
to true, send on `closeExit` and close it, close the connection when it is
non-nil, call on-stop when it is set.  On-stop sees `IsClosed() == true` and a
connection that is not open any more. -/
theorem StopChannel_sequence (h : ChannelHandle) (channel : Dyn) (b : Channel)
    (hopen : b.IsClosed = false) (hfresh : b.closeExit = CloseExit.fresh) :
    (StopChannel h channel b).trace =
      b.trace ++ [Event.setClosed true, Event.closeExitSend, Event.closeExitClose] ++
        (if GetConn channel b = NetConn.absent then [] else [Event.connClose]) ++
        (if h.OnStopHandle.isSome then
          [Event.onStop { closed := true, conn := (GetConn channel b).Close }] else []) ∧
    (GetConn channel b).Close ≠ NetConn.live ∧
    (StopChannel h channel b).IsClosed = true ∧
    GetConn channel (StopChannel h channel b) = (GetConn channel b).Close := by
  refine ⟨?_, ?_, StopChannel_IsClosed h channel b, ?_⟩
  · unfold StopChannel
    simp only [hopen, Bool.false_eq_true, if_false, Channel.SetClosed, Channel.log, hfresh]
    cases h.OnStopHandle with
    | none => simp [closeConn_trace, GetConn]
    | some u =>
      simp only [view, closeConn_GetConn, closeConn_trace, Channel.IsClosed, closeConn_closed]
      cases channel <;> simp [GetConn]
  · cases GetConn channel b <;> simp [NetConn.Close]
  · unfold StopChannel
    simp only [hopen, Bool.false_eq_true, if_false, Channel.SetClosed, Channel.log, hfresh]
    cases h.OnStopHandle with
    | none => simp only [closeConn_GetConn]; cases channel <;> rfl
    | some u =>
      have := closeConn_GetConn channel
        { b with closed := true, closeExit := CloseExit.fired true,
                 trace := b.trace ++ [Event.setClosed true] ++
                   [Event.closeExitSend, Event.closeExitClose] }
      cases channel <;> simpa [GetConn] using this

/-- C6 (witness): Stop on the open WebSocket channel `wsOpen`. -/
theorem StopChannel_sequence_witness :
    wsOpen.IsClosed = false ∧ wsOpen.closeExit = CloseExit.fresh ∧
    (StopChannel okHandle Dyn.ws wsOpen).trace =
      wsOpen.trace ++ [Event.setClosed true, Event.closeExitSend, Event.closeExitClose] ++
        (if GetConn Dyn.ws wsOpen = NetConn.absent then [] else [Event.connClose]) ++
        (if okHandle.OnStopHandle.isSome then
          [Event.onStop { closed := true, conn := (GetConn Dyn.ws wsOpen).Close }] else []) ∧
    (GetConn Dyn.ws wsOpen).Close ≠ NetConn.live ∧
    (StopChannel okHandle Dyn.ws wsOpen).IsClosed = true ∧
    GetConn Dyn.ws (StopChannel okHandle Dyn.ws wsOpen) = (GetConn Dyn.ws wsOpen).Close :=
  ⟨by decide, by decide, StopChannel_sequence okHandle Dyn.ws wsOpen (by decide) (by decide)⟩

/-- C7: on a closed channel `Write` returns a non-nil error and leaves the
whole state unchanged: no before-write, transport write, after-write or
on-error step is logged and the statistics are as before. -/
theorem Write_closed_is_error (h : ChannelHandle) (impl : WriteByConnImpl) (b : Channel)
    (p : Packet) (hc : b.IsClosed = true) :
    (Write h impl b p).1 = some ("wschannel had closed, chId:" ++ b.id) ∧
    (Write h impl b p).2 = b ∧
    (Write h impl b p).2.trace = b.trace ∧
    (Write h impl b p).2.ChannelStatis = b.ChannelStatis := by
  have hw : Write h impl b p = (some ("wschannel had closed, chId:" ++ b.id), b) := by
    unfold Write
    simp [hc]
  rw [hw]
  exact ⟨rfl, rfl, rfl, rfl⟩

/-- C7 (witness): a write on the never started channel `wsCh0`. -/
theorem Write_closed_is_error_witness :
    wsCh0.IsClosed = true ∧
    (Write okHandle (WriteByConnImpl.ws none) wsCh0 pkt).1 =
      some ("wschannel had closed, chId:" ++ wsCh0.id) ∧
    (Write okHandle (WriteByConnImpl.ws none) wsCh0 pkt).2 = wsCh0 ∧
    (Write okHandle (WriteByConnImpl.ws none) wsCh0 pkt).2.trace = wsCh0.trace ∧
    (Write okHandle (WriteByConnImpl.ws none) wsCh0 pkt).2.ChannelStatis = wsCh0.ChannelStatis :=
  ⟨rfl, Write_closed_is_error okHandle (WriteByConnImpl.ws none) wsCh0 pkt rfl⟩

/-- A step of a stop is not a step of the write path. -/
theorem isWriteStep_of_isStopStep (e : Event) (he : e.isStopStep = true) :
    e.isWriteStep = false := by
  cases e <;> simp_all [Event.isStopStep, Event.isWriteStep]

/-- The log of `recoverWrite`: one on-error with `ERR_WRITE`, then steps of a
stop. -/
theorem recoverWrite_trace (h : ChannelHandle) (rec : PanicVal) (b : Channel) :
    ∃ post, (recoverWrite h rec b).trace =
        b.trace ++ Event.onError ErrKind.ERR_WRITE rec.text :: post ∧
      ∀ e ∈ post, e.isStopStep = true := by
  obtain ⟨r, hr, hs⟩ := StopChannel_trace h Dyn.base
    (b.log [Event.onError ErrKind.ERR_WRITE rec.text])
  exact ⟨r, by simp [recoverWrite, Stop, hr], hs⟩

/-- The statistics are not touched by `recoverWrite`. -/
theorem recoverWrite_statis (h : ChannelHandle) (rec : PanicVal) (b : Channel) :
    (recoverWrite h rec b).ChannelStatis = b.ChannelStatis := by
  simp [recoverWrite, Stop, StopChannel_statis]

/-- When `WriteByConn` returns nil it has logged the call, possibly followed by
the write deadline, and changed nothing else. -/
theorem callWriteByConn_ok (impl : WriteByConnImpl) (p : Packet)
    (hok : ∀ b0, (callWriteByConn impl b0 p).1 = Outcome.ok) (b : Channel) :
    ∃ dl, callWriteByConn impl b p =
        (Outcome.ok, { b with trace := b.trace ++ Event.writeByConn p :: dl }) ∧
      ∀ e ∈ dl, e.isWriteStep = false := by
  cases impl with
  | base =>
    have := hok b
    simp [callWriteByConn] at this
  | other r =>
    have hr := hok b
    simp only [callWriteByConn] at hr
    subst hr
    exact ⟨[], by simp [callWriteByConn, Channel.log], by simp⟩
  | ws werr =>
    have hr := hok b
    simp only [callWriteByConn, WsChannel.WriteByConn] at hr ⊢
    by_cases hw : p.isWsPacket = true
    · cases werr with
      | some e => simp [hw] at hr
      | none =>
        refine ⟨[Event.setWriteDeadline b.conf.WriteTimeout], ?_, ?_⟩
        · simp [hw, Channel.log]
        · intro e he
          simp at he
          subst he
          rfl
    · simp [hw] at hr

/-- The write path from the transport write on, when the transport write
succeeds. -/
theorem writeSend_ok (h : ChannelHandle) (impl : WriteByConnImpl) (p : Packet)
    (hok : ∀ b0, (callWriteByConn impl b0 p).1 = Outcome.ok) (b : Channel) :
    (writeSend h impl b p).1 = none ∧
    (writeSend h impl b p).2.ChannelStatis.SendStatics =
      { Times := b.ChannelStatis.SendStatics.Times + 1,
        FailTimes := b.ChannelStatis.SendStatics.FailTimes,
        Bytes := b.ChannelStatis.SendStatics.Bytes + p.data.length } ∧
    (writeSend h impl b p).2.ChannelStatis.RevStatics = b.ChannelStatis.RevStatics ∧
    ∃ dl tail, (writeSend h impl b p).2.trace =
        b.trace ++ [Event.writeByConn p] ++ dl ++ [Event.sendStatis p true] ++
          (if h.OnAftWriteHandle.isSome then [Event.aftWrite p] else []) ++ tail ∧
      ∀ e ∈ dl ++ tail, e.isWriteStep = false := by
  obtain ⟨dl, hcall, hdl⟩ := callWriteByConn_ok impl p hok b
  unfold writeSend
  rw [hcall]
  simp only []
  cases ha : h.OnAftWriteHandle with
  | none =>
    refine ⟨rfl, by simp [SendStatis], by simp [SendStatis], dl, [], ?_, ?_⟩
    · simp [SendStatis, Channel.log]
    · simpa using hdl
  | some aft =>
    simp only []
    cases hr : aft p with
    | ok =>
      refine ⟨rfl, by simp [SendStatis], by simp [SendStatis], dl, [], ?_, ?_⟩
      · simp [SendStatis, Channel.log]
      · simpa using hdl
    | fail e =>
      refine ⟨rfl, by simp [SendStatis], by simp [SendStatis], dl, [], ?_, ?_⟩
      · simp [SendStatis, Channel.log]
      · simpa using hdl
    | panics rec =>
      obtain ⟨post, hpost, hstop⟩ := recoverWrite_trace h rec
        ((SendStatis { b with trace := b.trace ++ Event.writeByConn p :: dl } p true).log
          [Event.aftWrite p])
      refine ⟨rfl, ?_, ?_, dl, Event.onError ErrKind.ERR_WRITE rec.text :: post, ?_, ?_⟩
      · simp [recoverWrite_statis, SendStatis]
      · simp [recoverWrite_statis, SendStatis]
      · rw [hpost]
        simp [SendStatis, Channel.log]
      · intro e he
        simp at he
        rcases he with he | rfl | he
        · exact hdl e he
        · rfl
        · exact isWriteStep_of_isStopStep e (hstop e he)

/-- C8: on an open channel with a prepared packet before-write runs first.  If
it returns an error `e`, `Write` returns `e` and only the before-write call was
logged: no transport write, no statistics update, no after-write.  If it is
unset or returns nil and `WriteByConn` returns nil, `Write` returns nil, the
send counters take exactly one success, and the new steps are, in this order:
before-write (when set), the transport write, one successful statistics
update, after-write (when set); no other step of the write path occurs. -/
theorem Write_sequence (h : ChannelHandle) (impl : WriteByConnImpl) (b : Channel) (p : Packet)
    (hopen : b.IsClosed = false) (hprep : p.prepare = true) :
    (∀ f e, h.OnBefWriteHandle = some f → f p = Outcome.fail e →
      (Write h impl b p).1 = some e ∧
      (Write h impl b p).2.trace = b.trace ++ [Event.befWrite p] ∧
      (Write h impl b p).2.ChannelStatis = b.ChannelStatis) ∧
    ((h.OnBefWriteHandle = none ∨ ∃ f, h.OnBefWriteHandle = some f ∧ f p = Outcome.ok) →
      (∀ b0, (callWriteByConn impl b0 p).1 = Outcome.ok) →
      (Write h impl b p).1 = none ∧
      (Write h impl b p).2.ChannelStatis.SendStatics =
        { Times := b.ChannelStatis.SendStatics.Times + 1,
          FailTimes := b.ChannelStatis.SendStatics.FailTimes,
          Bytes := b.ChannelStatis.SendStatics.Bytes + p.data.length } ∧
      ∃ dl tail, (Write h impl b p).2.trace =
          b.trace ++ (if h.OnBefWriteHandle.isSome then [Event.befWrite p] else []) ++
            [Event.writeByConn p] ++ dl ++ [Event.sendStatis p true] ++
            (if h.OnAftWriteHandle.isSome then [Event.aftWrite p] else []) ++ tail ∧
        ∀ e ∈ dl ++ tail, e.isWriteStep = false) := by
  constructor
  · intro f e hf hfe
    unfold Write
    simp [hopen, hprep, hf, hfe]
  · intro hbef hok
    rcases hbef with hn | ⟨f, hf, hfo⟩
    · have hw : Write h impl b p = writeSend h impl b p := by
        unfold Write
        simp [hopen, hprep, hn]
      rw [hw]
      obtain ⟨h1, h2, _, dl, tail, h4, h5⟩ := writeSend_ok h impl p hok b
      refine ⟨h1, h2, dl, tail, ?_, h5⟩
      rw [h4]
      simp [hn]
    · have hw : Write h impl b p = writeSend h impl (b.log [Event.befWrite p]) p := by
        unfold Write
        simp [hopen, hprep, hf, hfo]
      rw [hw]
      obtain ⟨h1, h2, _, dl, tail, h4, h5⟩ :=
        writeSend_ok h impl p hok (b.log [Event.befWrite p])
      refine ⟨h1, by simpa using h2, dl, tail, ?_, h5⟩
      rw [h4]
      simp [hf]

/-- C8 (witness): on the open channel `wsOpen`, a refused write and a
successful write of the prepared packet `pkt`. -/
theorem Write_sequence_witness :
    wsOpen.IsClosed = false ∧ pkt.prepare = true ∧
    ((Write befFailHandle (WriteByConnImpl.ws none) wsOpen pkt).1 = some "refused" ∧
      (Write befFailHandle (WriteByConnImpl.ws none) wsOpen pkt).2.trace =
        wsOpen.trace ++ [Event.befWrite pkt] ∧
      (Write befFailHandle (WriteByConnImpl.ws none) wsOpen pkt).2.ChannelStatis =
        wsOpen.ChannelStatis) ∧
    ((Write okHandle (WriteByConnImpl.ws none) wsOpen pkt).1 = none ∧
      (Write okHandle (WriteByConnImpl.ws none) wsOpen pkt).2.ChannelStatis.SendStatics =
        { Times := wsOpen.ChannelStatis.SendStatics.Times + 1,
          FailTimes := wsOpen.ChannelStatis.SendStatics.FailTimes,
          Bytes := wsOpen.ChannelStatis.SendStatics.Bytes + pkt.data.length } ∧
      ∃ dl tail, (Write okHandle (WriteByConnImpl.ws none) wsOpen pkt).2.trace =
          wsOpen.trace ++ (if okHandle.OnBefWriteHandle.isSome then [Event.befWrite pkt] else []) ++
            [Event.writeByConn pkt] ++ dl ++ [Event.sendStatis pkt true] ++
            (if okHandle.OnAftWriteHandle.isSome then [Event.aftWrite pkt] else []) ++ tail ∧
        ∀ e ∈ dl ++ tail, e.isWriteStep = false) :=
  ⟨by decide, rfl,
   (Write_sequence befFailHandle (WriteByConnImpl.ws none) wsOpen pkt (by decide) rfl).1
     (fun _ => Outcome.fail "refused") "refused" rfl rfl,
   (Write_sequence okHandle (WriteByConnImpl.ws none) wsOpen pkt (by decide) rfl).2
     (Or.inr ⟨fun _ => Outcome.ok, rfl, rfl⟩)
     (fun b0 => by simp [callWriteByConn, WsChannel.WriteByConn, pkt, NewPacket, Packet.SetData])⟩

/-- On an open channel the log of `StopChannel` starts with the flag being set;
all that follows are steps of a stop. -/
theorem StopChannel_trace_open (h : ChannelHandle) (channel : Dyn) (b : Channel)
    (hopen : b.IsClosed = false) :
    ∃ rest, (StopChannel h channel b).trace = b.trace ++ Event.setClosed true :: rest ∧
      ∀ e ∈ rest, e.isStopStep = true := by
  obtain ⟨r, hr, hs⟩ := StopChannel_trace h channel b
  have hhead : ∃ r1, (StopChannel h channel b).trace = b.trace ++ Event.setClosed true :: r1 := by
    unfold StopChannel
    simp only [hopen, Bool.false_eq_true, if_false]
    cases hx : b.closeExit with
    | fired pending =>
      exact ⟨[Event.onError ErrKind.ERR_STOP "send on closed channel"],
        by simp [Channel.SetClosed, Channel.log, hx]⟩
    | fresh =>
      simp only [Channel.SetClosed, Channel.log, hx]
      cases h.OnStopHandle with
      | none =>
        apply Exists.intro
        simp only [closeConn_trace, List.append_assoc, List.singleton_append, List.cons_append]
        rfl
      | some u =>
        apply Exists.intro
        simp only [closeConn_trace, List.append_assoc, List.singleton_append, List.cons_append]
        rfl
  obtain ⟨r1, hr1⟩ := hhead
  have hrr : r = Event.setClosed true :: r1 := by
    have := hr.symm.trans hr1
    exact List.append_cancel_left this
  subst hrr
  exact ⟨r1, hr1, fun e he => hs e (by simp [he])⟩

/-- When `WriteByConn` panics it has logged the call, possibly followed by the
write deadline and a failed statistics update; the closed flag is as before. -/
theorem callWriteByConn_panics (impl : WriteByConnImpl) (p : Packet) (rec : PanicVal)
    (hp : ∀ b0, (callWriteByConn impl b0 p).1 = Outcome.panics rec) (b : Channel) :
    ∃ b2 mid, callWriteByConn impl b p = (Outcome.panics rec, b2) ∧
      b2.IsClosed = b.IsClosed ∧
      b2.trace = b.trace ++ Event.writeByConn p :: mid ∧
      ∀ e ∈ mid, e.isOnError = false ∧ e.isStopStep = false := by
  cases impl with
  | base =>
    have hr := hp b
    simp only [callWriteByConn, Outcome.panics.injEq] at hr
    subst hr
    exact ⟨b.log [Event.writeByConn p], [], rfl, rfl, rfl, by simp⟩
  | other r =>
    have hr := hp b
    simp only [callWriteByConn] at hr
    subst hr
    exact ⟨b.log [Event.writeByConn p], [], rfl, rfl, rfl, by simp⟩
  | ws werr =>
    have hr := hp b
    simp only [callWriteByConn, WsChannel.WriteByConn] at hr ⊢
    by_cases hw : p.isWsPacket = true
    · cases werr with
      | none => simp [hw] at hr
      | some e =>
        simp only [hw, Bool.not_true, Bool.false_eq_true, if_false,
          Outcome.panics.injEq] at hr ⊢
        subst hr
        refine ⟨_, [Event.setWriteDeadline b.conf.WriteTimeout, Event.sendStatis p false],
          rfl, rfl, by simp [SendStatis, Channel.log], ?_⟩
        intro x hx
        simp at hx
        rcases hx with rfl | rfl <;> exact ⟨rfl, rfl⟩
    · simp only [hw, Bool.not_false, if_true, Outcome.panics.injEq] at hr ⊢
      subst hr
      exact ⟨_, [], rfl, rfl, rfl, by simp⟩

/-- A step of a stop is not an on-error call with `ERR_WRITE`. -/
theorem isWriteError_of_isStopStep (e : Event) (he : e.isStopStep = true) :
    e.isWriteError = false := by
  cases e with
  | onError k m => cases k <;> simp_all [Event.isStopStep, Event.isWriteError]
  | _ => simp_all [Event.isStopStep, Event.isWriteError]

/-- An on-error call with `ERR_WRITE` is an on-error call. -/
theorem isWriteError_of_not_isOnError (e : Event) (he : e.isOnError = false) :
    e.isWriteError = false := by
  cases e <;> simp_all [Event.isOnError, Event.isWriteError]

/-- The write path from the transport write on, when the transport write
panics. -/
theorem writeSend_panics (h : ChannelHandle) (impl : WriteByConnImpl) (p : Packet)
    (rec : PanicVal) (hp : ∀ b0, (callWriteByConn impl b0 p).1 = Outcome.panics rec)
    (b : Channel) (hopen : b.IsClosed = false) :
    (writeSend h impl b p).1 = none ∧ (writeSend h impl b p).2.IsClosed = true ∧
    ∃ mid post, (writeSend h impl b p).2.trace =
        b.trace ++ Event.writeByConn p :: mid ++
          [Event.onError ErrKind.ERR_WRITE rec.text] ++ Event.setClosed true :: post ∧
      (∀ e ∈ mid, e.isOnError = false ∧ e.isStopStep = false) ∧
      ∀ e ∈ post, e.isStopStep = true := by
  obtain ⟨b2, mid, hcall, hcl, htr, hmid⟩ := callWriteByConn_panics impl p rec hp b
  unfold writeSend
  rw [hcall]
  have hopen2 : (b2.log [Event.onError ErrKind.ERR_WRITE rec.text]).IsClosed = false := by
    simp [hcl, hopen]
  obtain ⟨post, hpost, hstop⟩ := StopChannel_trace_open h Dyn.base _ hopen2
  refine ⟨rfl, ?_, mid, post, ?_, hmid, hstop⟩
  · simp [recoverWrite, Stop, StopChannel_IsClosed]
  · simp only [recoverWrite, Stop]
    rw [hpost]
    simp [htr]

/-- C9 (counterexample): on the open channel `wsOpen` with the prepared packet
`pkt`, a `WriteByConn` that returns the error "io" without panicking makes
`Write` return that error; on-error is not called and the channel stays
open. -/
theorem Write_returned_error_not_reported :
    wsOpen.IsClosed = false ∧ pkt.prepare = true ∧
    (Write okHandle (WriteByConnImpl.other (Outcome.fail "io")) wsOpen pkt).1 = some "io" ∧
    (Write okHandle (WriteByConnImpl.other (Outcome.fail "io")) wsOpen pkt).2.IsClosed = false ∧
    (Write okHandle (WriteByConnImpl.other (Outcome.fail "io")) wsOpen pkt).2.trace.countP
      Event.isOnError = 0 := by
  decide

/-- C9 (amended): on an open channel with a prepared packet that passes
before-write, whenever `WriteByConn` panics (as `WsChannel.WriteByConn` does on
every failure of `WriteMessage`), `Write` calls on-error with `ERR_WRITE`
exactly once and then stops the channel: the flag is set after the on-error
call, `IsClosed()` is true when `Write` returns, and `Write` returns nil. -/
theorem Write_transport_panic (h : ChannelHandle) (impl : WriteByConnImpl) (b : Channel)
    (p : Packet) (rec : PanicVal) (hopen : b.IsClosed = false) (hprep : p.prepare = true)
    (hbef : h.OnBefWriteHandle = none ∨ ∃ f, h.OnBefWriteHandle = some f ∧ f p = Outcome.ok)
    (hpanic : ∀ b0, (callWriteByConn impl b0 p).1 = Outcome.panics rec) :
    (Write h impl b p).1 = none ∧ (Write h impl b p).2.IsClosed = true ∧
    ∃ pre post, (Write h impl b p).2.trace =
        b.trace ++ pre ++ [Event.onError ErrKind.ERR_WRITE rec.text] ++
          Event.setClosed true :: post ∧
      (∀ e ∈ pre, e.isOnError = false ∧ e.isStopStep = false) ∧
      (∀ e ∈ post, e.isStopStep = true) ∧
      (pre ++ [Event.onError ErrKind.ERR_WRITE rec.text] ++
        Event.setClosed true :: post).countP Event.isWriteError = 1 := by
  have key : ∀ pre0 : List Event, (∀ e ∈ pre0, e.isOnError = false ∧ e.isStopStep = false) →
      Write h impl b p = writeSend h impl (b.log pre0) p →
      (Write h impl b p).1 = none ∧ (Write h impl b p).2.IsClosed = true ∧
      ∃ pre post, (Write h impl b p).2.trace =
          b.trace ++ pre ++ [Event.onError ErrKind.ERR_WRITE rec.text] ++
            Event.setClosed true :: post ∧
        (∀ e ∈ pre, e.isOnError = false ∧ e.isStopStep = false) ∧
        (∀ e ∈ post, e.isStopStep = true) ∧
        (pre ++ [Event.onError ErrKind.ERR_WRITE rec.text] ++
          Event.setClosed true :: post).countP Event.isWriteError = 1 := by
    intro pre0 hpre0 hw
    rw [hw]
    obtain ⟨h1, h2, mid, post, h3, h4, h5⟩ :=
      writeSend_panics h impl p rec hpanic (b.log pre0) (by simpa using hopen)
    have hpre : ∀ e ∈ pre0 ++ Event.writeByConn p :: mid,
        e.isOnError = false ∧ e.isStopStep = false := by
      intro e he
      simp at he
      rcases he with he | rfl | he
      · exact hpre0 e he
      · exact ⟨rfl, rfl⟩
      · exact h4 e he
    refine ⟨h1, h2, pre0 ++ Event.writeByConn p :: mid, post, ?_, hpre, h5, ?_⟩
    · rw [h3]
      simp
    · have c1 : (pre0 ++ Event.writeByConn p :: mid).countP Event.isWriteError = 0 := by
        rw [List.countP_eq_zero]
        intro e he
        simp [isWriteError_of_not_isOnError e (hpre e he).1]
      have c2 : post.countP Event.isWriteError = 0 := by
        rw [List.countP_eq_zero]
        intro e he
        simp [isWriteError_of_isStopStep e (h5 e he)]
      rw [List.countP_append, List.countP_append, c1]
      simp [List.countP_cons, c2, Event.isWriteError]
  rcases hbef with hn | ⟨f, hf, hfo⟩
  · have hw : Write h impl b p = writeSend h impl (b.log []) p := by
      unfold Write
      simp [hopen, hprep, hn, Channel.log]
    exact key [] (by simp) hw
  · have hw : Write h impl b p = writeSend h impl (b.log [Event.befWrite p]) p := by
      unfold Write
      simp [hopen, hprep, hf, hfo]
    refine key [Event.befWrite p] ?_ hw
    intro e he
    simp at he
    subst he
    exact ⟨rfl, rfl⟩

/-- C9 (witness): on the open channel `wsOpen`, `WsChannel.WriteByConn` with a
failing `WriteMessage`. -/
theorem Write_transport_panic_witness :
    wsOpen.IsClosed = false ∧ pkt.prepare = true ∧
    (Write okHandle (WriteByConnImpl.ws (some "io")) wsOpen pkt).1 = none ∧
    (Write okHandle (WriteByConnImpl.ws (some "io")) wsOpen pkt).2.IsClosed = true ∧
    ∃ pre post, (Write okHandle (WriteByConnImpl.ws (some "io")) wsOpen pkt).2.trace =
        wsOpen.trace ++ pre ++ [Event.onError ErrKind.ERR_WRITE (PanicVal.error "io").text] ++
          Event.setClosed true :: post ∧
      (∀ e ∈ pre, e.isOnError = false ∧ e.isStopStep = false) ∧
      (∀ e ∈ post, e.isStopStep = true) ∧
      (pre ++ [Event.onError ErrKind.ERR_WRITE (PanicVal.error "io").text] ++
        Event.setClosed true :: post).countP Event.isWriteError = 1 :=
  ⟨by decide, rfl,
   Write_transport_panic okHandle (WriteByConnImpl.ws (some "io")) wsOpen pkt
     (PanicVal.error "io") (by decide) rfl (Or.inr ⟨fun _ => Outcome.ok, rfl, rfl⟩)
     (fun b0 => by simp [callWriteByConn, WsChannel.WriteByConn, pkt, NewPacket, Packet.SetData])⟩

/-- A TCP read loop whose reads all fail keeps reading: `TcpChannel.Read` does
not count the failure, so `IsReadLoopContinued` stays true. -/
theorem tcp_loop_on_errors (h : ChannelHandle) (g : ChannelConf) (es : List String)
    (b : Channel) (hfresh : b.closeExit = CloseExit.fresh)
    (hlt : (b.ChannelStatis.RevStatics.FailTimes : Int) < b.conf.CloseRevFailTime) :
    (startReadLoop h g Dyn.tcp (es.map ConnRead.err) b).1 = LoopEnd.reading ∧
    (startReadLoop h g Dyn.tcp (es.map ConnRead.err) b).2.IsClosed = b.IsClosed ∧
    (startReadLoop h g Dyn.tcp (es.map ConnRead.err) b).2.ChannelStatis = b.ChannelStatis ∧
    (startReadLoop h g Dyn.tcp (es.map ConnRead.err) b).2.trace.countP Event.isOnError =
      b.trace.countP Event.isOnError := by
  induction es generalizing b with
  | nil => simp [startReadLoop, hfresh]
  | cons e es ih =>
    have hstep : startReadLoop h g Dyn.tcp ((e :: es).map ConnRead.err) b =
        startReadLoop h g Dyn.tcp (es.map ConnRead.err)
          (b.log [Event.setReadDeadline g.ReadTimeout, Event.connRead]) := by
      simp [startReadLoop, hfresh, callRead, TcpChannel.Read, IsReadLoopContinued, hlt]
    rw [hstep]
    obtain ⟨h1, h2, h3, h4⟩ :=
      ih (b.log [Event.setReadDeadline g.ReadTimeout, Event.connRead]) (by simpa using hfresh)
        (by simpa using hlt)
    refine ⟨h1, by simpa using h2, by simpa using h3, ?_⟩
    rw [h4]
    simp [List.countP_append, Event.isOnError]

/-- C10 (the code at the failing input): on the open TCP channel `tcpOpen`, with
`CloseRevFailTime = 3` and no failure counted, after any number `k` of
successive failed reads (3 in particular) the read loop has not terminated,
the channel is still open, the receive-failure counter is still 0 and
on-error has not been called. -/
theorem tcp_read_failures_never_counted (k : Nat) :
    tcpOpen.conf.CloseRevFailTime = 3 ∧ tcpOpen.IsClosed = false ∧
    (startReadLoop okHandle conf3 Dyn.tcp
      (List.replicate k (ConnRead.err "timeout")) tcpOpen).1 = LoopEnd.reading ∧
    (startReadLoop okHandle conf3 Dyn.tcp
      (List.replicate k (ConnRead.err "timeout")) tcpOpen).2.IsClosed = false ∧
    (startReadLoop okHandle conf3 Dyn.tcp
      (List.replicate k (ConnRead.err "timeout")) tcpOpen).2.ChannelStatis.RevStatics.FailTimes
      = 0 ∧
    (startReadLoop okHandle conf3 Dyn.tcp
      (List.replicate k (ConnRead.err "timeout")) tcpOpen).2.trace.countP Event.isOnError
      = 0 := by
  have hmap : List.replicate k (ConnRead.err "timeout") =
      (List.replicate k "timeout").map ConnRead.err := by simp
  rw [hmap]
  obtain ⟨h1, h2, h3, h4⟩ := tcp_loop_on_errors okHandle conf3 (List.replicate k "timeout")
    tcpOpen (by decide) (by decide)
  refine ⟨by decide, by decide, h1, ?_, ?_, ?_⟩
  · rw [h2]
    decide
  · rw [h3]
    decide
  · rw [h4]
    decide

/-- C11 (the code at the failing input): on the open WebSocket channel `wsOpen`
one failed read ends the loop: on-error is called once with `ERR_READ` and the
channel is closed, but the deferred function stops it with `b.Stop()`, whose
`GetConn` is the one of the base struct: the connection that the channel's own
`GetConn` returns is still open and no `conn.Close()` was run.  A
`StopChannel` handed the WebSocket channel itself does close it. -/
theorem ws_read_error_keeps_conn_open :
    wsOpen.IsClosed = false ∧ GetConn Dyn.ws wsOpen = NetConn.live ∧
    (startReadLoop okHandle conf3 Dyn.ws [ConnRead.err "eof"] wsOpen).1 = LoopEnd.failed ∧
    (startReadLoop okHandle conf3 Dyn.ws [ConnRead.err "eof"] wsOpen).2.IsClosed = true ∧
    (startReadLoop okHandle conf3 Dyn.ws [ConnRead.err "eof"] wsOpen).2.trace.countP
      Event.isReadError = 1 ∧
    GetConn Dyn.ws (startReadLoop okHandle conf3 Dyn.ws [ConnRead.err "eof"] wsOpen).2 =
      NetConn.live ∧
    (startReadLoop okHandle conf3 Dyn.ws [ConnRead.err "eof"] wsOpen).2.trace.countP
      Event.isConnClose = 0 ∧
    GetConn Dyn.ws (StopChannel okHandle Dyn.ws wsOpen) = NetConn.shut := by
  decide

/-- The deadlines that `WsChannel.Read` and `KcpChannel.Read` set come from the
channel's own configuration. -/
theorem ws_kcp_deadline_own_conf (b : Channel) (r : ConnRead) :
    (∃ rest, (WsChannel.Read b r).2.trace =
      b.trace ++ Event.setReadDeadline (b.conf.ReadTimeout * b.conf.CloseRevFailTime) :: rest) ∧
    (∃ rest, (KcpChannel.Read b r).2.trace =
      b.trace ++ Event.setReadDeadline b.conf.ReadTimeout :: rest) := by
  constructor
  · cases r with
    | err e => exact ⟨_, by simp [WsChannel.Read, RevStatisFail, Channel.log]; rfl⟩
    | got m bytes => exact ⟨_, by simp [WsChannel.Read, RevStatis, Channel.log]; rfl⟩
  · cases r with
    | err e => exact ⟨_, by simp [KcpChannel.Read, Channel.log]; rfl⟩
    | got m bytes =>
      by_cases hle : bytes.length ≤ 8
      · exact ⟨_, by simp [KcpChannel.Read, hle, Channel.log]; rfl⟩
      · exact ⟨_, by simp [KcpChannel.Read, hle, RevStatis, Channel.log]; rfl⟩

/-- C13 (the code at the failing input): the TCP channel `tcpOpen` has a read
timeout of 5 seconds in its own configuration, the global configuration one
of 30 seconds; the deadline that `TcpChannel.Read` sets is 30 seconds. -/
theorem tcp_deadline_from_global_conf :
    tcpOpen.conf.ReadTimeout = 5 ∧ globalConf30.ReadTimeout = 30 ∧
    (TcpChannel.Read globalConf30 tcpOpen (ConnRead.err "t")).2.trace =
      tcpOpen.trace ++ [Event.setReadDeadline 30, Event.connRead] ∧
    (TcpChannel.Read globalConf30 tcpOpen (ConnRead.got 0 [1, 2])).2.trace.take
        (tcpOpen.trace.length + 2) =
      tcpOpen.trace ++ [Event.setReadDeadline 30, Event.connRead] := by
  decide

/-- A `WriteByConn` that panics does not count the packet as sent. -/
theorem callWriteByConn_panics_times (impl : WriteByConnImpl) (p : Packet) (rec : PanicVal)
    (hp : ∀ b0, (callWriteByConn impl b0 p).1 = Outcome.panics rec) (b : Channel) :
    (callWriteByConn impl b p).2.ChannelStatis.SendStatics.Times =
      b.ChannelStatis.SendStatics.Times := by
  cases impl with
  | base => rfl
  | other r => rfl
  | ws werr =>
    have hr := hp b
    simp only [callWriteByConn, WsChannel.WriteByConn] at hr ⊢
    by_cases hw : p.isWsPacket = true
    · cases werr with
      | none => simp [hw] at hr
      | some e => simp [hw, SendStatis]
    · simp [hw]

/-- C19: on an open channel, when the packet is prepared and passes before-write
and `WriteByConn` panics, `Write` recovers and returns nil; the failure is
reported by one on-error call with `ERR_WRITE` followed by the stop of the
channel (closed when `Write` returns), and the packet is not counted as sent.
When the packet is not prepared `Write` returns nil and leaves the state as it
was: no hook and no transport write was run. -/
theorem Write_nil_without_write (h : ChannelHandle) (impl : WriteByConnImpl) (b : Channel)
    (p : Packet) (hopen : b.IsClosed = false) :
    (p.prepare = true →
      (h.OnBefWriteHandle = none ∨ ∃ f, h.OnBefWriteHandle = some f ∧ f p = Outcome.ok) →
      ∀ rec, (∀ b0, (callWriteByConn impl b0 p).1 = Outcome.panics rec) →
        (Write h impl b p).1 = none ∧
        (Write h impl b p).2.IsClosed = true ∧
        (∃ pre post, (Write h impl b p).2.trace =
          b.trace ++ pre ++ [Event.onError ErrKind.ERR_WRITE rec.text] ++
            Event.setClosed true :: post) ∧
        (Write h impl b p).2.ChannelStatis.SendStatics.Times =
          b.ChannelStatis.SendStatics.Times) ∧
    (p.prepare = false → Write h impl b p = (none, b)) := by
  constructor
  · intro hprep hbef rec hpanic
    have key : ∀ pre0 : List Event, Write h impl b p = writeSend h impl (b.log pre0) p →
        (Write h impl b p).1 = none ∧
        (Write h impl b p).2.IsClosed = true ∧
        (∃ pre post, (Write h impl b p).2.trace =
          b.trace ++ pre ++ [Event.onError ErrKind.ERR_WRITE rec.text] ++
            Event.setClosed true :: post) ∧
        (Write h impl b p).2.ChannelStatis.SendStatics.Times =
          b.ChannelStatis.SendStatics.Times := by
      intro pre0 hw
      rw [hw]
      obtain ⟨h1, h2, mid, post, h3, _, _⟩ :=
        writeSend_panics h impl p rec hpanic (b.log pre0) (by simpa using hopen)
      refine ⟨h1, h2, ⟨pre0 ++ Event.writeByConn p :: mid, post, by rw [h3]; simp⟩, ?_⟩
      obtain ⟨b2, mid2, hcall, _, _, _⟩ := callWriteByConn_panics impl p rec hpanic (b.log pre0)
      have ht := callWriteByConn_panics_times impl p rec hpanic (b.log pre0)
      unfold writeSend
      rw [hcall] at ht ⊢
      simpa [recoverWrite_statis] using ht
    rcases hbef with hn | ⟨f, hf, hfo⟩
    · exact key [] (by unfold Write; simp [hopen, hprep, hn, Channel.log])
    · exact key [Event.befWrite p] (by unfold Write; simp [hopen, hprep, hf, hfo])
  · intro hnp
    unfold Write
    simp [hopen, hnp]

/-- C19 (witness): on the open channel `wsOpen`, a prepared packet whose
`WriteMessage` fails, and a packet that is not prepared. -/
theorem Write_nil_without_write_witness :
    wsOpen.IsClosed = false ∧ pkt.prepare = true ∧
    ((Write okHandle (WriteByConnImpl.ws (some "io")) wsOpen pkt).1 = none ∧
      (Write okHandle (WriteByConnImpl.ws (some "io")) wsOpen pkt).2.IsClosed = true ∧
      (∃ pre post, (Write okHandle (WriteByConnImpl.ws (some "io")) wsOpen pkt).2.trace =
        wsOpen.trace ++ pre ++ [Event.onError ErrKind.ERR_WRITE (PanicVal.error "io").text] ++
          Event.setClosed true :: post) ∧
      (Write okHandle (WriteByConnImpl.ws (some "io")) wsOpen pkt).2.ChannelStatis.SendStatics.Times
        = wsOpen.ChannelStatis.SendStatics.Times) ∧
    (NewPacket true).prepare = false ∧
    Write okHandle (WriteByConnImpl.ws none) wsOpen (NewPacket true) = (none, wsOpen) :=
  ⟨by decide, rfl,
   (Write_nil_without_write okHandle (WriteByConnImpl.ws (some "io")) wsOpen pkt (by decide)).1
     rfl (Or.inr ⟨fun _ => Outcome.ok, rfl, rfl⟩) (PanicVal.error "io")
     (fun b0 => by simp [callWriteByConn, WsChannel.WriteByConn, pkt, NewPacket, Packet.SetData]),
   rfl,
   (Write_nil_without_write okHandle (WriteByConnImpl.ws none) wsOpen (NewPacket true)
     (by decide)).2 rfl⟩

/-! ### The server straps -/

/-- A map assignment adds at most one entry. -/
theorem mapSet_length_le {V : Type} (m : List (String × V)) (key : String) (v : V) :
    (mapSet m key v).length ≤ m.length + 1 := by
  unfold mapSet
  split <;> simp

/-- Every channel that `BaseServer.Stop` has called `StopChannel` on is
closed. -/
theorem stopEntry_IsClosed (hOf : String → ChannelHandle) (e : String × Member) :
    (stopEntry hOf e).2.ch.IsClosed = true := by
  simp [stopEntry, StopChannel_IsClosed]

/-- C14 (counterexample): the KCP strap `kcpStrapRestarted` (started, stopped,
started again, one member) is open; `BaseServer.Stop` sets `Closed` and then
blocks in the send on `Exit`, whose buffer still holds the value of the first
stop: the member is not stopped and stays in the map. -/
theorem BaseServer_Stop_blocks_after_restart :
    kcpStrapRestarted.Closed = false ∧
    kcpStrapRestarted.Channels.map (fun e => (e.1, e.2.ch.IsClosed)) = [("c2", false)] ∧
    BaseServer.Stop (fun _ => okHandle) kcpStrapRestarted =
      StopResult.blocked { kcpStrapRestarted with Closed := true } := by
  decide

/-- Deleting a key twice is deleting it once. -/
theorem mapDelete_idem {V : Type} (m : List (String × V)) (key : String) :
    mapDelete (mapDelete m key) key = mapDelete m key := by
  simp [mapDelete, List.filter_filter]

/-- One turn of the loop deletes its key from the map and changes nothing else
of the strap. -/
theorem stopTurn_spec (hOf : String → ChannelHandle) (e : String × Member) (s : BaseServer) :
    (stopTurn hOf e s).Channels = mapDelete s.Channels e.1 ∧
    (stopTurn hOf e s).Closed = s.Closed ∧
    (stopTurn hOf e s).exitPending = s.exitPending ∧
    (stopTurn hOf e s).slog = s.slog := by
  refine ⟨?_, rfl, rfl, rfl⟩
  simp only [stopTurn]
  split
  · exact mapDelete_idem _ _
  · rfl

/-- What the loop of `BaseServer.Stop` computes: every entry it is given is
stopped, in turn; the keys of these entries are deleted from the map; nothing
else of the strap changes. -/
theorem stopLoop_spec (hOf : String → ChannelHandle) (l : List (String × Member))
    (s : BaseServer) (acc : List (String × Member)) :
    (stopLoop hOf l s acc).2 = acc ++ l.map (stopEntry hOf) ∧
    (stopLoop hOf l s acc).1.Channels =
      s.Channels.filter (fun e => !(l.map Prod.fst).contains e.1) ∧
    (stopLoop hOf l s acc).1.Closed = s.Closed ∧
    (stopLoop hOf l s acc).1.exitPending = s.exitPending ∧
    (stopLoop hOf l s acc).1.slog = s.slog := by
  induction l generalizing s acc with
  | nil => simp [stopLoop]
  | cons e rest ih =>
    simp only [stopLoop]
    obtain ⟨h1, h2, h3, h4, h5⟩ := ih (stopTurn hOf e s) (acc ++ [stopEntry hOf e])
    obtain ⟨t1, t2, t3, t4⟩ := stopTurn_spec hOf e s
    refine ⟨by rw [h1]; simp, ?_, by rw [h3, t2], by rw [h4, t3], by rw [h5, t4]⟩
    rw [h2, t1]
    simp only [mapDelete, List.filter_filter]
    apply List.filter_congr
    intro x _
    by_cases hx : x.1 = e.1
    · simp [hx]
    · have hb : (x.1 == e.1) = false := by simpa using hx
      simp [hb, bne, Bool.and_comm]

/-- C14 (amended): on an open strap whose `Exit` buffer is empty (a strap that
was not stopped before) `BaseServer.Stop` returns, sets `Closed` to true,
calls `StopChannel` on every member (each is closed afterwards) and leaves the
map empty; on a closed strap it returns with the state unchanged and stops no
channel. -/
theorem BaseServer_Stop_stops_all (hOf : String → ChannelHandle) (s : BaseServer) :
    (s.Closed = false → s.exitPending = false →
      ∃ s1 stopped, BaseServer.Stop hOf s = StopResult.returned s1 stopped ∧
        s1.Closed = true ∧ s1.Channels = [] ∧
        stopped = s.Channels.map (stopEntry hOf) ∧
        stopped.map Prod.fst = s.Channels.map Prod.fst ∧
        ∀ e ∈ stopped, e.2.ch.IsClosed = true) ∧
    (s.Closed = true → BaseServer.Stop hOf s = StopResult.returned s []) := by
  constructor
  · intro hc he
    obtain ⟨h1, h2, h3, _, _⟩ := stopLoop_spec hOf s.Channels
      { s with Closed := true, exitPending := true, slog := s.slog ++ [StrapEvent.exitSend] } []
    refine ⟨_, _, by simp only [BaseServer.Stop, hc, he]; rfl, ?_, ?_, ?_, ?_, ?_⟩
    · simpa using h3
    · rw [h2]
      simp only [List.filter_eq_nil_iff]
      intro x hx
      have : x.1 ∈ s.Channels.map Prod.fst := List.mem_map_of_mem Prod.fst hx
      simp [this]
    · simpa using h1
    · rw [h1]
      simp [List.map_map, Function.comp_def, stopEntry]
    · intro e hmem
      rw [h1] at hmem
      simp only [List.nil_append, List.mem_map] at hmem
      obtain ⟨e0, _, rfl⟩ := hmem
      exact stopEntry_IsClosed hOf e0
  · intro hc
    simp [BaseServer.Stop, hc]

/-- C14 (witness): Stop on the KCP strap `kcpStrap3`, opened by its Start, with
its three members, and Stop on a strap that was never started. -/
theorem BaseServer_Stop_stops_all_witness :
    kcpStrap3.Closed = false ∧ kcpStrap3.exitPending = false ∧
    (∃ s1 stopped, BaseServer.Stop (fun _ => okHandle) kcpStrap3 =
        StopResult.returned s1 stopped ∧
      s1.Closed = true ∧ s1.Channels = [] ∧
      stopped = kcpStrap3.Channels.map (stopEntry (fun _ => okHandle)) ∧
      stopped.map Prod.fst = kcpStrap3.Channels.map Prod.fst ∧
      ∀ e ∈ stopped, e.2.ch.IsClosed = true) ∧
    BaseServer.Stop (fun _ => okHandle) (NewServer serverConf2) =
      StopResult.returned (NewServer serverConf2) [] :=
  ⟨by decide, by decide,
   (BaseServer_Stop_stops_all (fun _ => okHandle) kcpStrap3).1 (by decide) (by decide),
   (BaseServer_Stop_stops_all (fun _ => okHandle) (NewServer serverConf2)).2 rfl⟩

/-- C15: when the map holds at least `MaxChannelSize` entries `startWs` returns a
non-nil error and the state is as before: the map is unchanged and the log
gains no upgrade, no construction and no start of a channel.  And for every
call, a map of at most `MaxChannelSize` entries has at most `MaxChannelSize`
entries afterwards. -/
theorem startWs_respects_cap (handle : ChannelHandle) (upg : Option String) (id : String)
    (s : BaseServer) :
    ((s.Channels.length : Int) ≥ s.ServerConf.MaxChannelSize →
      (HttpWsServerStrap.startWs handle upg id s).1 =
        some ("max accept size:" ++ toString s.ServerConf.MaxChannelSize) ∧
      (HttpWsServerStrap.startWs handle upg id s).2 = s ∧
      (HttpWsServerStrap.startWs handle upg id s).2.Channels = s.Channels ∧
      (HttpWsServerStrap.startWs handle upg id s).2.slog = s.slog) ∧
    ((s.Channels.length : Int) ≤ s.ServerConf.MaxChannelSize →
      ((HttpWsServerStrap.startWs handle upg id s).2.Channels.length : Int) ≤
        s.ServerConf.MaxChannelSize) := by
  constructor
  · intro hge
    have hw : HttpWsServerStrap.startWs handle upg id s =
        (some ("max accept size:" ++ toString s.ServerConf.MaxChannelSize), s) := by
      unfold HttpWsServerStrap.startWs
      simp [hge]
    rw [hw]
    exact ⟨rfl, rfl, rfl, rfl⟩
  · intro hle
    unfold HttpWsServerStrap.startWs
    by_cases hge : (s.Channels.length : Int) ≥ s.ServerConf.MaxChannelSize
    · simp [hge, hle]
    · simp only [hge, if_false]
      cases upg with
      | some e => simpa using hle
      | none =>
        simp only []
        cases hst : Gsfly.Start handle (NewWsChannel id s.ServerConf.ChannelConf true) with
        | mk err ch =>
          cases err with
          | some e => simpa using hle
          | none =>
            simp only []
            have hlen := mapSet_length_le s.Channels id
              ({ channel := Dyn.ws, ch := ch, onStopWrapped := false } : Member)
            have hlt : (s.Channels.length : Int) < s.ServerConf.MaxChannelSize := by omega
            omega

/-- C15 (witness): a third upgrade on the WebSocket strap `wsStrapFull`, whose
map holds `MaxChannelSize = 2` entries. -/
theorem startWs_respects_cap_witness :
    (wsStrapFull.Channels.length : Int) ≥ wsStrapFull.ServerConf.MaxChannelSize ∧
    ((HttpWsServerStrap.startWs okHandle none "c3" wsStrapFull).1 =
        some ("max accept size:" ++ toString wsStrapFull.ServerConf.MaxChannelSize) ∧
      (HttpWsServerStrap.startWs okHandle none "c3" wsStrapFull).2 = wsStrapFull ∧
      (HttpWsServerStrap.startWs okHandle none "c3" wsStrapFull).2.Channels =
        wsStrapFull.Channels ∧
      (HttpWsServerStrap.startWs okHandle none "c3" wsStrapFull).2.slog = wsStrapFull.slog) ∧
    ((HttpWsServerStrap.startWs okHandle none "c3" wsStrapFull).2.Channels.length : Int) ≤
      wsStrapFull.ServerConf.MaxChannelSize :=
  ⟨by decide,
   (startWs_respects_cap okHandle none "c3" wsStrapFull).1 (by decide),
   (startWs_respects_cap okHandle none "c3" wsStrapFull).2 (by decide)⟩

/-- C16 (the code at the failing input): with `MaxChannelSize = 2`, three
connections accepted by the KCP strap, and likewise by the KWS00 strap, are
all started and entered in the map, which then holds three open channels: the
accept loops do not test the cap. -/
theorem kcp_accept_ignores_cap :
    serverConf2.MaxChannelSize = 2 ∧
    kcpStrap3.Channels.map (fun e => (e.1, e.2.ch.IsClosed)) =
      [("c1", false), ("c2", false), ("c3", false)] ∧
    kcpStrap3.Channels.length = 3 ∧
    kwsStrap3.Channels.map (fun e => (e.1, e.2.ch.IsClosed)) =
      [("c1", false), ("c2", false), ("c3", false)] ∧
    kwsStrap3.Channels.length = 3 := by
  decide

/-- C17 (the code at the failing input): the WebSocket strap `wsStrapFull` holds
the started channel "c1"; after that channel's `Stop()` it is closed and still
a key of the map, because `startWs` passes the handle on unwrapped.  The same
holds for a channel accepted by the KWS00 strap, while the one accepted by the
KCP strap, whose on-stop is wrapped, is removed. -/
theorem ws_stopped_channel_stays_in_map :
    (wsStrapFull.Channels.lookup "c1").map (fun m => m.ch.IsClosed) = some false ∧
    ((BaseServer.stopChannel okHandle "c1" wsStrapFull).Channels.lookup "c1").map
      (fun m => m.ch.IsClosed) = some true ∧
    (kwsStrap3.Channels.lookup "c1").map (fun m => m.ch.IsClosed) = some false ∧
    ((BaseServer.stopChannel okHandle "c1" kwsStrap3).Channels.lookup "c1").map
      (fun m => m.ch.IsClosed) = some true ∧
    (kcpStrap3.Channels.lookup "c1").map (fun m => m.ch.IsClosed) = some false ∧
    (BaseServer.stopChannel okHandle "c1" kcpStrap3).Channels.lookup "c1" = none := by
  decide

/-- After the loop every registered pattern is in the routes and `f` holds the
handle of the entry that `range` yielded last. -/
theorem registerWsHandlers_spec {H : Type} (order : List (String × H)) (r : WsRoutes H) :
    (registerWsHandlers order r).patterns = r.patterns ++ order.map Prod.fst ∧
    (registerWsHandlers order r).f = ((order.getLast?).map Prod.snd).or r.f := by
  induction order generalizing r with
  | nil => simp [registerWsHandlers]
  | cons e rest ih =>
    obtain ⟨key, f⟩ := e
    obtain ⟨h1, h2⟩ := ih { patterns := r.patterns ++ [key], f := some f }
    refine ⟨by simp [registerWsHandlers, h1], ?_⟩
    simp only [registerWsHandlers, h2]
    cases rest with
    | nil => simp
    | cons e2 rest2 =>
      rw [List.getLast?_cons_cons]
      cases hgl : (e2 :: rest2).getLast? with
      | none => simp at hgl
      | some x => simp

/-- C18 (the code at the failing input): with "/a" registered for handle 1 and
"/b" for handle 2, every function literal of the loop reads the one range
variable `f`.  When `range` yields "/a" first, a request on "/a" is served
with handle 2; when it yields "/b" first, a request on "/b" is served with
handle 1. -/
theorem ws_routes_share_the_last_handle :
    twoWsHandlers = [("/a", 1), ("/b", 2)] ∧
    handleOfRequest (registerWsHandlers [("/a", 1), ("/b", 2)] noRoutes) "/a" = some 2 ∧
    handleOfRequest (registerWsHandlers [("/a", 1), ("/b", 2)] noRoutes) "/b" = some 2 ∧
    handleOfRequest (registerWsHandlers [("/b", 2), ("/a", 1)] noRoutes) "/b" = some 1 ∧
    handleOfRequest (registerWsHandlers [("/b", 2), ("/a", 1)] noRoutes) "/a" = some 1 := by
  decide

/-! ### On-start and the channel it is handed -/

/-- Nothing appended. -/
theorem logExtends_refl (b : Channel) : logExtends b b :=
  ⟨[], by simp⟩

/-- Appending twice. -/
theorem logExtends_trans {a b c : Channel} (h1 : logExtends a b) (h2 : logExtends b c) :
    logExtends a c := by
  obtain ⟨r1, e1⟩ := h1
  obtain ⟨r2, e2⟩ := h2
  exact ⟨r1 ++ r2, by rw [e2, e1, List.append_assoc]⟩

/-- Logging appends. -/
theorem logExtends_log (b : Channel) (es : List Event) : logExtends b (b.log es) :=
  ⟨es, rfl⟩

/-- The deferred function of the read loop appends. -/
theorem logExtends_recoverReadLoop (h : ChannelHandle) (msg : String) (b : Channel) :
    logExtends b (recoverReadLoop h msg b) := by
  obtain ⟨r, hr, _⟩ := StopChannel_trace h Dyn.base (b.log [Event.onError ErrKind.ERR_READ msg])
  exact ⟨Event.onError ErrKind.ERR_READ msg :: r, by simp [recoverReadLoop, Stop, hr]⟩

/-- The dispatch of a packet appends. -/
theorem logExtends_dispatch (b : Channel) (rev : Option Packet) :
    logExtends b (dispatch b rev) := by
  unfold dispatch
  cases rev with
  | none => exact logExtends_refl b
  | some p =>
    simp only []
    split
    · split
      · exact logExtends_log b _
      · exact logExtends_log b _
    · exact logExtends_refl b

/-- A read appends. -/
theorem logExtends_callRead (g : ChannelConf) (channel : Dyn) (b : Channel) (r : ConnRead) :
    logExtends b (callRead g channel b r).2 := by
  cases channel with
  | base => exact logExtends_refl b
  | tcp =>
    cases r with
    | err e => exact logExtends_log b _
    | got m bytes =>
      exact ⟨[Event.setReadDeadline g.ReadTimeout, Event.connRead,
        Event.revStatis ((NewPacket false).SetData bytes)],
        by simp [callRead, TcpChannel.Read, RevStatis, Channel.log]⟩
  | ws =>
    cases r with
    | err e =>
      exact ⟨[Event.setReadDeadline (b.conf.ReadTimeout * b.conf.CloseRevFailTime),
        Event.connRead, Event.revStatisFail],
        by simp [callRead, WsChannel.Read, RevStatisFail, Channel.log]⟩
    | got m bytes =>
      exact ⟨[Event.setReadDeadline (b.conf.ReadTimeout * b.conf.CloseRevFailTime),
        Event.connRead, Event.revStatis (({ NewPacket true with MsgType := m }).SetData bytes)],
        by simp [callRead, WsChannel.Read, RevStatis, Channel.log]⟩
  | kcp =>
    cases r with
    | err e => exact logExtends_log b _
    | got m bytes =>
      simp only [callRead, KcpChannel.Read]
      split
      · exact logExtends_log b _
      · exact ⟨[Event.setReadDeadline b.conf.ReadTimeout, Event.connRead,
          Event.revStatis (callSetData (KcpChannel.NewPacket b) bytes)],
          by simp [RevStatis, Channel.log]⟩

/-- The read loop appends to the log. -/
theorem logExtends_startReadLoop (h : ChannelHandle) (g : ChannelConf) (channel : Dyn)
    (l : List ConnRead) (b : Channel) : logExtends b (startReadLoop h g channel l b).2 := by
  induction l generalizing b with
  | nil =>
    simp only [startReadLoop]
    cases b.closeExit with
    | fired pending => exact logExtends_log _ _
    | fresh =>
      cases channel with
      | base => exact logExtends_recoverReadLoop h _ b
      | ws => exact logExtends_refl b
      | tcp => exact logExtends_refl b
      | kcp => exact logExtends_refl b
  | cons r rest ih =>
    simp only [startReadLoop]
    cases b.closeExit with
    | fired pending => exact logExtends_log _ _
    | fresh =>
      have hc := logExtends_callRead g channel b r
      simp only []
      cases hcr : callRead g channel b r with
      | mk res b1 =>
        rw [hcr] at hc
        cases res with
        | panicked v => exact logExtends_trans hc (logExtends_recoverReadLoop h _ b1)
        | ret rev err =>
          cases err with
          | some e =>
            simp only []
            split
            · exact logExtends_trans hc (ih b1)
            · exact logExtends_trans hc (logExtends_recoverReadLoop h _ b1)
          | none =>
            exact logExtends_trans hc (logExtends_trans (logExtends_dispatch b1 rev) (ih _))

/-- A KCP read loop that is not told to exit sets the deadline and reads. -/
theorem kcp_loop_issues_read (h : ChannelHandle) (g : ChannelConf) (b : Channel)
    (r : ConnRead) (rest : List ConnRead) (hfresh : b.closeExit = CloseExit.fresh) :
    logExtends (b.log [Event.setReadDeadline b.conf.ReadTimeout, Event.connRead])
      (startReadLoop h g Dyn.kcp (r :: rest) b).2 := by
  have hread : logExtends (b.log [Event.setReadDeadline b.conf.ReadTimeout, Event.connRead])
      (callRead g Dyn.kcp b r).2 := by
    cases r with
    | err e => exact logExtends_refl _
    | got m bytes =>
      simp only [callRead, KcpChannel.Read]
      split
      · exact logExtends_refl _
      · exact ⟨[Event.revStatis (callSetData (KcpChannel.NewPacket b) bytes)],
          by simp [RevStatis, Channel.log]⟩
  simp only [startReadLoop, hfresh]
  cases hcr : callRead g Dyn.kcp b r with
  | mk res b1 =>
    rw [hcr] at hread
    cases res with
    | panicked v => exact logExtends_trans hread (logExtends_recoverReadLoop h _ b1)
    | ret rev err =>
      cases err with
      | some e =>
        simp only []
        split
        · exact logExtends_trans hread (logExtends_startReadLoop h g Dyn.kcp rest b1)
        · exact logExtends_trans hread (logExtends_recoverReadLoop h _ b1)
      | none =>
        exact logExtends_trans hread (logExtends_trans (logExtends_dispatch b1 rev)
          (logExtends_startReadLoop h g Dyn.kcp rest _))

/-- C12: a KCP read of at most 8 bytes returns `(nil, nil)` and leaves every
statistic as it was; the only new steps are the deadline and the read.  The
read loop then continues with nothing dispatched: it has not terminated and is
in the next read when the transport has delivered nothing more, and when the
transport delivers more it sets the deadline and reads again.  A read of more
than 8 bytes returns a prepared packet whose payload is the bytes read; under
the protocol KWS00 it is a `KwsPacket` with the frame made from these bytes. -/
theorem KcpChannel_Read_short_or_packet (h : ChannelHandle) (g : ChannelConf) (b : Channel)
    (m : Int) (bytes : List Nat) (rest : List ConnRead) :
    (bytes.length ≤ 8 →
      (KcpChannel.Read b (ConnRead.got m bytes)).1 = ReadResult.ret none none ∧
      (KcpChannel.Read b (ConnRead.got m bytes)).2.ChannelStatis = b.ChannelStatis ∧
      (KcpChannel.Read b (ConnRead.got m bytes)).2.trace =
        b.trace ++ [Event.setReadDeadline b.conf.ReadTimeout, Event.connRead] ∧
      (b.closeExit = CloseExit.fresh →
        startReadLoop h g Dyn.kcp (ConnRead.got m bytes :: rest) b =
          startReadLoop h g Dyn.kcp rest
            (b.log [Event.setReadDeadline b.conf.ReadTimeout, Event.connRead]) ∧
        startReadLoop h g Dyn.kcp [ConnRead.got m bytes] b =
          (LoopEnd.reading,
            b.log [Event.setReadDeadline b.conf.ReadTimeout, Event.connRead]) ∧
        ∀ r2 rest2, ∃ more,
          (startReadLoop h g Dyn.kcp (ConnRead.got m bytes :: r2 :: rest2) b).2.trace =
            b.trace ++ [Event.setReadDeadline b.conf.ReadTimeout, Event.connRead,
              Event.setReadDeadline b.conf.ReadTimeout, Event.connRead] ++ more)) ∧
    (8 < bytes.length →
      ∃ p, (KcpChannel.Read b (ConnRead.got m bytes)).1 = ReadResult.ret (some p) none ∧
        p.prepare = true ∧ p.data = bytes ∧
        p.isKwsPacket = decide (b.protocol = some Protocol.PROTOCOL_KWS00) ∧
        p.Frame = (if b.protocol = some Protocol.PROTOCOL_KWS00
          then some (NewInputFrame bytes) else none)) := by
  constructor
  · intro hle
    refine ⟨by simp [KcpChannel.Read, hle], by simp [KcpChannel.Read, hle],
      by simp [KcpChannel.Read, hle], ?_⟩
    intro hfresh
    have hstep : ∀ l, startReadLoop h g Dyn.kcp (ConnRead.got m bytes :: l) b =
        startReadLoop h g Dyn.kcp l
          (b.log [Event.setReadDeadline b.conf.ReadTimeout, Event.connRead]) := by
      intro l
      simp [startReadLoop, hfresh, callRead, KcpChannel.Read, hle, dispatch]
    refine ⟨hstep rest, ?_, ?_⟩
    · rw [hstep]
      simp [startReadLoop, hfresh]
    · intro r2 rest2
      rw [hstep]
      obtain ⟨more, hmore⟩ := kcp_loop_issues_read h g
        (b.log [Event.setReadDeadline b.conf.ReadTimeout, Event.connRead]) r2 rest2
        (by simpa using hfresh)
      exact ⟨more, by rw [hmore]; simp⟩
  · intro hgt
    have hn : ¬ bytes.length ≤ 8 := by omega
    refine ⟨callSetData (KcpChannel.NewPacket b) bytes, by simp [KcpChannel.Read, hn], ?_⟩
    by_cases hk : b.protocol = some Protocol.PROTOCOL_KWS00
    · simp [callSetData, KcpChannel.NewPacket, KwsPacket.SetData, Packet.SetData, NewPacket, hk]
    · simp [callSetData, KcpChannel.NewPacket, KwsPacket.SetData, Packet.SetData, NewPacket, hk]

/-- C12 (witness): a 4-byte read on the open KCP channel `kcpOpen`, alone and
followed by a 9-byte read, and a 9-byte read on the open KWS00 channel
`kwsOpen`. -/
theorem KcpChannel_Read_short_or_packet_witness :
    ((KcpChannel.Read kcpOpen (ConnRead.got 0 [1, 2, 3, 4])).1 = ReadResult.ret none none ∧
      (KcpChannel.Read kcpOpen (ConnRead.got 0 [1, 2, 3, 4])).2.ChannelStatis =
        kcpOpen.ChannelStatis ∧
      (KcpChannel.Read kcpOpen (ConnRead.got 0 [1, 2, 3, 4])).2.trace =
        kcpOpen.trace ++ [Event.setReadDeadline kcpOpen.conf.ReadTimeout, Event.connRead] ∧
      (kcpOpen.closeExit = CloseExit.fresh →
        startReadLoop okHandle conf3 Dyn.kcp (ConnRead.got 0 [1, 2, 3, 4] :: []) kcpOpen =
          startReadLoop okHandle conf3 Dyn.kcp []
            (kcpOpen.log [Event.setReadDeadline kcpOpen.conf.ReadTimeout, Event.connRead]) ∧
        startReadLoop okHandle conf3 Dyn.kcp [ConnRead.got 0 [1, 2, 3, 4]] kcpOpen =
          (LoopEnd.reading,
            kcpOpen.log [Event.setReadDeadline kcpOpen.conf.ReadTimeout, Event.connRead]) ∧
        ∀ r2 rest2, ∃ more,
          (startReadLoop okHandle conf3 Dyn.kcp
            (ConnRead.got 0 [1, 2, 3, 4] :: r2 :: rest2) kcpOpen).2.trace =
            kcpOpen.trace ++ [Event.setReadDeadline kcpOpen.conf.ReadTimeout, Event.connRead,
              Event.setReadDeadline kcpOpen.conf.ReadTimeout, Event.connRead] ++ more)) ∧
    (∃ p, (KcpChannel.Read kwsOpen (ConnRead.got 0 [1, 2, 3, 4, 5, 6, 7, 8, 9])).1 =
        ReadResult.ret (some p) none ∧
      p.prepare = true ∧ p.data = [1, 2, 3, 4, 5, 6, 7, 8, 9] ∧
      p.isKwsPacket = decide (kwsOpen.protocol = some Protocol.PROTOCOL_KWS00) ∧
      p.Frame = (if kwsOpen.protocol = some Protocol.PROTOCOL_KWS00
        then some (NewInputFrame [1, 2, 3, 4, 5, 6, 7, 8, 9]) else none)) :=
  ⟨(KcpChannel_Read_short_or_packet okHandle conf3 kcpOpen 0 [1, 2, 3, 4] []).1 (by decide),
   (KcpChannel_Read_short_or_packet okHandle conf3 kwsOpen 0 [1, 2, 3, 4, 5, 6, 7, 8, 9] []).2
     (by decide)⟩

end Gsfly
